import Mathlib

/-!
A verification development for the block-filesystem core: a shallow embedding
of `inode.c`, `directory.c` and `storage.c` (inode layer, directory layer and
storage/operation layer), together with theorems settling the specified
properties of those layers.

The block store, the generic bitmap and the path-splitting list utility are
external collaborators whose sources (`blocks.c`, `bitmap.c`, `slist.c`, and
the headers `blocks.h` / `directory.h`) are not part of the core sources; the
definitions for them below are modelled from the specification and are marked
as such in their doc comments.

Machine integers of the C code are embedded as `Int` (C `int` / `off_t`) and
`Nat` (C `size_t` and list indices); C truncating division `/` on `int` is
`Int.tdiv` and `%` is `Int.tmod`.  The global mutable state (both bitmaps, the
block array and the inode table) is an explicit state record `FS` threaded
through every operation; a C function that mutates through a pointer obtained
from `get_inode` is embedded by re-reading the inode from the current state at
the places the C code would observe the mutation through the alias.
-/

set_option maxHeartbeats 1000000
set_option maxRecDepth 100000

/-- `BLOCK_SIZE`, `sizeof(dirent_t)`, `DIR_NAME_LENGTH` and `BLOCK_COUNT` are
defined in headers that are not part of the core sources.  Modelled from the
spec: fixed geometry constants of the filesystem, kept abstract. -/
structure geom_t where
  blockSize : Nat
  entSize : Nat
  nameMax : Nat
  blockCount : Nat
deriving DecidableEq

/-- Directory entry `dirent_t` (`directory.h`): a fixed-length name, an inode
number and the allocation flag `input_allocation`. -/
structure dirent_t where
  name : String
  inum : Int
  input_allocation : Nat
deriving DecidableEq

/-- Modelled from the spec: one `BLOCK_SIZE`-byte block of the external block
store.  The C code reinterprets a block's bytes as raw file data, as an array
of directory entries, or as an array of `int` block indices (indirect block);
the model keeps the three views as separate components (no operation of the
core ever accesses one block through two different views). -/
structure block_t where
  bytes : List Nat
  dirents : List dirent_t
  ptrs : List Int
deriving DecidableEq

/-- `inode_t` from `inode.h`: reference count, mode, size in bytes, single
indirect block pointer `block`, and the two direct pointers `pointers[2]`
(embedded as a two-element list). -/
structure inode_t where
  refs : Int
  mode : Int
  size : Int
  block : Int
  pointers : List Int
deriving DecidableEq

def zeroDirent : dirent_t := ⟨"", 0, 0⟩

def zeroInode : inode_t := ⟨0, 0, 0, 0, [0, 0]⟩

/-- A zero-filled block, in all three views (the backing store is a fresh
zero-filled mapping). -/
def zeroBlock (g : geom_t) : block_t :=
  ⟨List.replicate g.blockSize 0,
   List.replicate (g.blockSize / g.entSize) zeroDirent,
   List.replicate (g.blockSize / 4) 0⟩

/-- The process-wide mutable state: geometry, the block bitmap, the inode
bitmap, the block array, and the inode table.  The inode table is an
association list keyed by `Int` so that the source's `get_inode` applied to an
invalid (negative) index is still an observable read/write in the model. -/
structure FS where
  geom : geom_t
  blocksBitmap : List Nat
  inodeBitmap : List Nat
  blocks : List block_t
  inodes : List (Int × inode_t)
deriving DecidableEq

/-- Modelled from the spec: bit-level get over an opaque bitmap buffer.
Reading a bit that was never set yields 0. -/
def bitmap_get (bm : List Nat) (i : Int) : Nat :=
  if 0 ≤ i then bm.getD i.toNat 0 else 0

/-- Modelled from the spec: bit-level put over an opaque bitmap buffer. -/
def bitmap_put (bm : List Nat) (i : Int) (v : Nat) : List Nat :=
  if 0 ≤ i then bm.set i.toNat v else bm

/-- Modelled from the spec: `alloc_block` scans the block bitmap for the first
clear bit, sets it and returns its index; it returns -1 when no free block
exists. -/
def alloc_block (s : FS) : Int × FS :=
  match s.blocksBitmap.findIdx? (fun b => b = 0) with
  | some i => ((i : Int), { s with blocksBitmap := s.blocksBitmap.set i 1 })
  | none => (-1, s)

/-- Modelled from the spec: `free_block` clears the block's bitmap bit,
returning the block to the free pool. -/
def free_block (s : FS) (bnum : Int) : FS :=
  { s with blocksBitmap := bitmap_put s.blocksBitmap bnum 0 }

/-- Modelled from the spec: `blocks_get_block` yields the contents of the
block at the given index. -/
def blocks_get_block (s : FS) (bnum : Int) : block_t :=
  if 0 ≤ bnum then s.blocks.getD bnum.toNat (zeroBlock s.geom) else zeroBlock s.geom

/-- Store back the contents of the block at the given index (the model's
counterpart of writing through the pointer `blocks_get_block` returned). -/
def setBlock (s : FS) (bnum : Int) (b : block_t) : FS :=
  if 0 ≤ bnum then { s with blocks := s.blocks.set bnum.toNat b } else s

/-- Read of the inode table slot at an arbitrary `Int` index; a slot never
written reads as zero-filled memory. -/
def tblGet : List (Int × inode_t) → Int → inode_t
  | [], _ => zeroInode
  | (j, w) :: rest, i => if j = i then w else tblGet rest i

/-- Write of the inode table slot at an arbitrary `Int` index. -/
def tblSet : List (Int × inode_t) → Int → inode_t → List (Int × inode_t)
  | [], i, v => [(i, v)]
  | (j, w) :: rest, i, v => if j = i then (i, v) :: rest else (j, w) :: tblSet rest i v

/-- Whether the inode table slot at the given index has ever been written. -/
def tblHas : List (Int × inode_t) → Int → Bool
  | [], _ => false
  | (j, _) :: rest, i => if j = i then true else tblHas rest i

/-- `get_inode` (inode.c): the inode at index `inum` of the inode table. -/
def get_inode (s : FS) (inum : Int) : inode_t :=
  tblGet s.inodes inum

/-- Writing back an inode is the model's counterpart of mutating through the
pointer `get_inode` returned. -/
def set_inode (s : FS) (inum : Int) (v : inode_t) : FS :=
  { s with inodes := tblSet s.inodes inum v }

/-- `inode_get_bnum` (inode.c): translate a byte offset of the file to the
index of the block holding it: direct pointers for the first two extents, the
indirect block beyond. -/
def inode_get_bnum (s : FS) (node : inode_t) (file_bnum : Int) : Int :=
  let curr_pointer := Int.tdiv file_bnum (s.geom.blockSize : Int)
  if 2 ≤ curr_pointer then
    (blocks_get_block s node.block).ptrs.getD (curr_pointer - 2).toNat 0
  else
    node.pointers.getD curr_pointer.toNat 0

/-- `alloc_inode` (inode.c): scan the inode bitmap over `BLOCK_COUNT` bits for
the first clear bit and set it; `node_index` stays -1 when none is free.  The
source then unconditionally initializes `refs/mode/size` and `pointers[0]`
through `get_inode(node_index)` — also when `node_index` is -1. -/
def alloc_inode (s : FS) : Int × FS :=
  let node_index : Int :=
    match s.inodeBitmap.findIdx? (fun b => b = 0) with
    | some i => (i : Int)
    | none => -1
  let s1 : FS :=
    match s.inodeBitmap.findIdx? (fun b => b = 0) with
    | some i => { s with inodeBitmap := s.inodeBitmap.set i 1 }
    | none => s
  let node := get_inode s1 node_index
  let p := alloc_block s1
  let s3 := set_inode p.2 node_index
    { node with refs := 1, mode := 0, size := 0, pointers := node.pointers.set 0 p.1 }
  (node_index, s3)

/-- Ascending list of `Int` indices `lo, lo+1, ..., hi` (empty for `hi < lo`),
the index sequence of a C `for (i = lo; i <= hi; ++i)` loop. -/
def intRangeAsc (lo hi : Int) : List Int :=
  (List.range (hi + 1 - lo).toNat).map (fun k => lo + (k : Int))

/-- One iteration of the `grow_inode` loop (inode.c): extent indices below 2
allocate into the direct pointers, indices from 2 allocate into the indirect
block, allocating the indirect block itself on first use. -/
def growStep (inum : Int) (s : FS) (i : Int) : FS :=
  let node := get_inode s inum
  if 2 ≤ i then
    let s1 :=
      if node.block = 0 then
        let p := alloc_block s
        set_inode p.2 inum { node with block := p.1 }
      else s
    let node1 := get_inode s1 inum
    let p2 := alloc_block s1
    let blk := blocks_get_block p2.2 node1.block
    setBlock p2.2 node1.block { blk with ptrs := blk.ptrs.set (i - 2).toNat p2.1 }
  else
    let p := alloc_block s
    set_inode p.2 inum { node with pointers := node.pointers.set i.toNat p.1 }

/-- `grow_inode` (inode.c): allocate extents `size/BLOCK_SIZE + 1` up to
`new_size/BLOCK_SIZE` (C truncating division), then set `size = new_size`. -/
def grow_inode (s : FS) (inum : Int) (size : Int) : FS :=
  let node := get_inode s inum
  let curr_size := Int.tdiv node.size (s.geom.blockSize : Int) + 1
  let size_needed := Int.tdiv size (s.geom.blockSize : Int)
  let s1 := (intRangeAsc curr_size size_needed).foldl (growStep inum) s
  let node1 := get_inode s1 inum
  set_inode s1 inum { node1 with size := size }

/-- One iteration of the `shrink_inode` loop (inode.c).  Note two source
details kept by the model: the indirect array entry itself is not zeroed (the
source assigns 0 only to the local copy `curr_point`), and at `i == 2` the
indirect block itself is freed and `node->block` zeroed. -/
def shrinkStep (inum : Int) (s : FS) (i : Int) : FS :=
  let node := get_inode s inum
  if 2 ≤ i then
    let curr_point := (blocks_get_block s node.block).ptrs.getD (i - 2).toNat 0
    let s1 := free_block s curr_point
    if i = 2 then
      let s2 := free_block s1 node.block
      set_inode s2 inum { get_inode s2 inum with block := 0 }
    else s1
  else
    let s1 := free_block s (node.pointers.getD i.toNat 0)
    set_inode s1 inum { node with pointers := node.pointers.set i.toNat 0 }

/-- `shrink_inode` (inode.c): free extents from `size/BLOCK_SIZE + 1` down to
`new_size/BLOCK_SIZE` inclusive (the source's `i >= size_needed` bound), then
set `size = new_size`. -/
def shrink_inode (s : FS) (inum : Int) (size : Int) : FS :=
  let node := get_inode s inum
  let curr_size := Int.tdiv node.size (s.geom.blockSize : Int) + 1
  let size_needed := Int.tdiv size (s.geom.blockSize : Int)
  let s1 := ((intRangeAsc size_needed curr_size).reverse).foldl (shrinkStep inum) s
  let node1 := get_inode s1 inum
  set_inode s1 inum { node1 with size := size }

/-- `free_inode` (inode.c): shrink the extent map to size 0, free the block at
`pointers[0]` (which the shrink has already zeroed), clear the bitmap bit. -/
def free_inode (s : FS) (inum : Int) : FS :=
  let s1 := shrink_inode s inum 0
  let node := get_inode s1 inum
  let s2 := free_block s1 (node.pointers.getD 0 0)
  { s2 with inodeBitmap := bitmap_put s2.inodeBitmap inum 0 }

/-- `directory_init` (directory.c): allocate the root inode and give it
directory mode 040755. -/
def directory_init (s : FS) : FS :=
  let p := alloc_inode s
  if p.1 < 0 then p.2
  else
    let node := get_inode p.2 p.1
    set_inode p.2 p.1 { node with mode := 0o40755 }

/-- The scan loop of `directory_lookup`: first index in the list whose entry
matches `name` and has `input_allocation == 1` yields that entry's inode
number; otherwise -1. -/
def lookupScan (entries : List dirent_t) (name : String) : List Nat → Int
  | [] => -1
  | i :: rest =>
    let e := entries.getD i zeroDirent
    if e.name = name ∧ e.input_allocation = 1 then e.inum
    else lookupScan entries name rest

/-- `directory_lookup` (directory.c): the empty name resolves to inode 0; any
other name is scanned for over a fixed `num_entries = 64` entries of the
directory's entry block. -/
def directory_lookup (s : FS) (di : inode_t) (name : String) : Int :=
  let num_entries := 64
  if name = "" then 0
  else
    let dir_entries := (blocks_get_block s (di.pointers.getD 0 0)).dirents
    lookupScan dir_entries name (List.range num_entries)

/-- The token accumulator loop behind `s_explode`: `tok` holds the characters
of the current component in reverse.  A `/` closes the current component; a
`/` that ends the string closes it without opening a further one. -/
def explodeAux : List Char → List Char → List String
  | [], tok => [String.mk tok.reverse]
  | c :: cs, tok =>
    if c = '/' then
      match cs with
      | [] => [String.mk tok.reverse]
      | _ :: _ => String.mk tok.reverse :: explodeAux cs []
    else explodeAux cs (c :: tok)

/-- Modelled from the spec: the path-splitting list utility (`s_explode` of
`slist.c`) tokenizes a slash-delimited string into components: each component
is the run of characters up to the next `/` (so a leading slash yields a
leading empty component), a trailing slash yields no trailing component, and
the empty string yields no components. -/
def explodeChars : List Char → List String
  | [] => []
  | c :: cs => explodeAux (c :: cs) []

/-- `s_explode` on a `String`. -/
def s_explode (text : String) : List String :=
  explodeChars text.data

/-- The `path_lookup` loop (directory.c): starting from the inode reached so
far, look each component up in turn, failing as soon as a component fails. -/
def path_lookup_go (s : FS) : Int → List String → Int
  | inum, [] => inum
  | inum, comp :: rest =>
    let dir_node := get_inode s inum
    let inum' := directory_lookup s dir_node comp
    if inum' = -1 then -1 else path_lookup_go s inum' rest

/-- `path_lookup` (directory.c): resolve a path starting at root inode 0. -/
def path_lookup (s : FS) (path : String) : Int :=
  path_lookup_go s 0 (s_explode path)

/-- `split_path` (storage.c): the parent path joins every component except the
last behind a `/` (each truncated to `DIR_NAME_LENGTH`), and the child name is
the last component truncated to `DIR_NAME_LENGTH`. -/
def split_path (g : geom_t) (path : String) : String × String :=
  let comps := s_explode path
  let parentPath := comps.dropLast.foldl (fun acc c => acc ++ "/" ++ c.take g.nameMax) ""
  let childName := (comps.getLast?.getD "").take g.nameMax
  (parentPath, childName)

/-- The reuse scan of `directory_put`: first index in the list whose entry has
`input_allocation == 0`.  The source iterates `for (i = 1; i < entries; i++)`,
so the index list it is applied to starts at 1. -/
def putScan (entries : List dirent_t) : List Nat → Option Nat
  | [] => none
  | i :: rest =>
    if (entries.getD i zeroDirent).input_allocation = 0 then some i
    else putScan entries rest

/-- `directory_put` (directory.c): build the new entry (name truncated by
`strncpy` to `DIR_NAME_LENGTH`), write it into the first unallocated slot
among indices `1 .. size/entSize - 1`, or append it at index `size/entSize`
and grow the directory's size by one entry. -/
def directory_put (s : FS) (dinum : Int) (name : String) (inum : Int) : Int × FS :=
  let di := get_inode s dinum
  let entries := (Int.tdiv di.size (s.geom.entSize : Int)).toNat
  let bnum := di.pointers.getD 0 0
  let dir_entries := (blocks_get_block s bnum).dirents
  let mock_dir : dirent_t := ⟨name.take s.geom.nameMax, inum, 1⟩
  match putScan dir_entries ((List.range entries).drop 1) with
  | some i =>
    let blk := blocks_get_block s bnum
    (0, setBlock s bnum { blk with dirents := blk.dirents.set i mock_dir })
  | none =>
    let blk := blocks_get_block s bnum
    let s1 := setBlock s bnum { blk with dirents := blk.dirents.set entries mock_dir }
    let di1 := get_inode s1 dinum
    (0, set_inode s1 dinum { di1 with size := di1.size + (s.geom.entSize : Int) })

/-- `errno` values of the reference platform, as used by the source. -/
def ENOENT : Int := 2

def EEXIST : Int := 17

/-- The scan loop of `directory_delete`: first index whose entry matches
`name` with a truthy `input_allocation`. -/
def delScan (entries : List dirent_t) (name : String) : List Nat → Option Nat
  | [] => none
  | i :: rest =>
    let e := entries.getD i zeroDirent
    if e.name = name ∧ e.input_allocation ≠ 0 then some i
    else delScan entries name rest

/-- `directory_delete` (directory.c): scan the `size/entSize` recorded entries
for an allocated entry of that name; on a match decrement the target inode's
refs, free the inode if refs dropped to 0 or below, and clear the entry's
allocation flag; otherwise return `-ENOENT` changing nothing. -/
def directory_delete (s : FS) (dinum : Int) (name : String) : Int × FS :=
  let di := get_inode s dinum
  let entries := (Int.tdiv di.size (s.geom.entSize : Int)).toNat
  let bnum := di.pointers.getD 0 0
  let dir_entries := (blocks_get_block s bnum).dirents
  match delScan dir_entries name (List.range entries) with
  | none => (-ENOENT, s)
  | some i =>
    let inum := (dir_entries.getD i zeroDirent).inum
    let curr := get_inode s inum
    let s1 := set_inode s inum { curr with refs := curr.refs - 1 }
    let s2 := if (get_inode s1 inum).refs ≤ 0 then free_inode s1 inum else s1
    let blk := blocks_get_block s2 bnum
    let e := blk.dirents.getD i zeroDirent
    (0, setBlock s2 bnum { blk with dirents := blk.dirents.set i { e with input_allocation := 0 } })

/-- The three fields of `struct stat` that `storage_stat` fills. -/
structure stat_t where
  st_nlink : Int
  st_mode : Int
  st_size : Int
deriving DecidableEq

/-- `storage_stat` (storage.c): resolve the path; an inode number `≤ 0` is
failure (-1, stat record untouched), otherwise fill link count, mode and size
from the inode and return 0.  The returned `FS` is the state after the call. -/
def storage_stat (s : FS) (path : String) : Int × Option stat_t × FS :=
  let inodeNumber := path_lookup s path
  if inodeNumber ≤ 0 then (-1, none, s)
  else
    let inode := get_inode s inodeNumber
    (0, some ⟨inode.refs, inode.mode, inode.size⟩, s)

/-- `storage_truncate` (storage.c): resolve the path (inode number `≤ 0` is
failure), then grow when the requested size exceeds the current size and
shrink otherwise. -/
def storage_truncate (s : FS) (path : String) (size : Int) : Int × FS :=
  let inodeNumber := path_lookup s path
  if inodeNumber ≤ 0 then (-1, s)
  else
    let inode := get_inode s inodeNumber
    if inode.size < size then (0, grow_inode s inodeNumber size)
    else (0, shrink_inode s inodeNumber size)

/-- Overwrite `dst` from position `off` with the bytes of `src` (the model's
`memcpy` into a block). -/
def overlay (dst : List Nat) (off : Nat) (src : List Nat) : List Nat :=
  dst.take off ++ src ++ dst.drop (off + src.length)

/-- The copy loop of `storage_read`.  Each iteration copies
`min(remaining, BLOCK_SIZE - offset % BLOCK_SIZE)` bytes from the block the
current position translates to (the source computes the in-block offset from
`offset` alone, not `offset + bytesRead`, and the model keeps that).  The
fuel argument is the requested byte count: with a positive `BLOCK_SIZE` every
iteration copies at least one byte, so the loop runs at most that often. -/
def readLoop (s : FS) (inode : inode_t) (offset : Int) :
    Nat → Int → Int → List Nat → Int × List Nat
  | 0, _, bytesRead, acc => (bytesRead, acc)
  | fuel + 1, remaining, bytesRead, acc =>
    if 0 < remaining then
      let blockNum := inode_get_bnum s inode (offset + bytesRead)
      let blk := (blocks_get_block s blockNum).bytes
      let boff := (Int.tmod offset (s.geom.blockSize : Int)).toNat
      let blockReadSize : Int :=
        (s.geom.blockSize : Int) - Int.tmod offset (s.geom.blockSize : Int)
      let readSize := if remaining < blockReadSize then remaining else blockReadSize
      readLoop s inode offset fuel (remaining - readSize) (bytesRead + readSize)
        (acc ++ (blk.drop boff).take readSize.toNat)
    else (bytesRead, acc)

/-- `storage_read` (storage.c): resolve the path (inode number `≤ 0` is
failure -1); return 0 bytes when the offset is at or past the inode's size;
otherwise run the copy loop for exactly the requested byte count.  The result
is the returned count together with the bytes placed in the caller's buffer;
the state is not changed by a read. -/
def storage_read (s : FS) (path : String) (size : Nat) (offset : Int) :
    Int × List Nat :=
  let inodeNumber := path_lookup s path
  if inodeNumber ≤ 0 then (-1, [])
  else
    let inode := get_inode s inodeNumber
    if inode.size ≤ offset then (0, [])
    else readLoop s inode offset size (size : Int) 0 []

/-- The copy loop of `storage_write`, mirror of `readLoop` writing into the
blocks; the inode argument is the pointer snapshot the source loop reads its
extent map through (the loop itself never changes the inode). -/
def writeLoop (buf : List Nat) (offset : Int) (inode : inode_t) :
    FS → Nat → Int → Int → Int × FS
  | s, 0, _, bytesWritten => (bytesWritten, s)
  | s, fuel + 1, size, bytesWritten =>
    if 0 < size then
      let blockNum := inode_get_bnum s inode (offset + bytesWritten)
      let blk := blocks_get_block s blockNum
      let boff := (Int.tmod offset (s.geom.blockSize : Int)).toNat
      let blockWriteSize : Int :=
        (s.geom.blockSize : Int) - Int.tmod offset (s.geom.blockSize : Int)
      let writeSize := if size < blockWriteSize then size else blockWriteSize
      let chunk := (buf.drop bytesWritten.toNat).take writeSize.toNat
      let s1 := setBlock s blockNum { blk with bytes := overlay blk.bytes boff chunk }
      writeLoop buf offset inode s1 fuel (size - writeSize) (bytesWritten + writeSize)
    else (bytesWritten, s)

/-- `storage_write` (storage.c): resolve the path (inode number `≤ 0` is
failure); grow via `storage_truncate` when `offset + size` exceeds the current
size; then copy block by block.  The source's `inode` pointer observes the
truncate's mutations, so the model re-reads the inode after the truncate. -/
def storage_write (s : FS) (path : String) (buf : List Nat) (size : Nat)
    (offset : Int) : Int × FS :=
  let inodeNumber := path_lookup s path
  if inodeNumber ≤ 0 then (-1, s)
  else
    let inode := get_inode s inodeNumber
    let endOffset := offset + (size : Int)
    let s1 := if inode.size < endOffset then (storage_truncate s path endOffset).2 else s
    let inode1 := get_inode s1 inodeNumber
    writeLoop buf offset inode1 s1 size (size : Int) 0

/-- `storage_mknod` (storage.c): `-EEXIST` when the path already resolves,
`-ENOENT` when the parent does not; otherwise allocate an inode, set
`refs=1`, the mode and size 0, and insert the child entry into the parent. -/
def storage_mknod (s : FS) (path : String) (mode : Int) : Int × FS :=
  let inodeNumber := path_lookup s path
  if inodeNumber ≠ -1 then (-EEXIST, s)
  else
    let pc := split_path s.geom path
    let parentInodeNum := path_lookup s pc.1
    if parentInodeNum < 0 then (-ENOENT, s)
    else
      let p := alloc_inode s
      let childInode := get_inode p.2 p.1
      let s1 := set_inode p.2 p.1 { childInode with refs := 1, mode := mode, size := 0 }
      let r := directory_put s1 parentInodeNum pc.2 p.1
      (0, r.2)

/-- `storage_unlink` (storage.c): split the path, resolve the parent and
delegate to `directory_delete`. -/
def storage_unlink (s : FS) (path : String) : Int × FS :=
  let pc := split_path s.geom path
  let parentInodeNum := path_lookup s pc.1
  directory_delete s parentInodeNum pc.2

/-- `storage_link` (storage.c): resolve the target (failure -1 when absent),
insert an entry for the new name in its parent, increment the target inode's
refs. -/
def storage_link (s : FS) (fromPath toPath : String) : Int × FS :=
  let toInodeNum := path_lookup s toPath
  if toInodeNum < 0 then (-1, s)
  else
    let pc := split_path s.geom fromPath
    let parentInodeNum := path_lookup s pc.1
    let r := directory_put s parentInodeNum pc.2 toInodeNum
    let toInode := get_inode r.2 toInodeNum
    (0, set_inode r.2 toInodeNum { toInode with refs := toInode.refs + 1 })

/-- Modelled from the spec: `blocks_init` creates the backing store of
`BLOCK_COUNT` zero-filled blocks with the reserved block 0 already marked in
the block bitmap, the inode bitmap clear and the inode table zero-filled. -/
def blocks_init (g : geom_t) : FS :=
  { geom := g
    blocksBitmap := (List.replicate g.blockCount 0).set 0 1
    inodeBitmap := List.replicate g.blockCount 0
    blocks := List.replicate g.blockCount (zeroBlock g)
    inodes := [] }

/-- `storage_init` (storage.c): initialize the block store, allocate the three
reserved blocks when block 1 is still free, and create the root directory when
block 4 is still free. -/
def storage_init (g : geom_t) : FS :=
  let s := blocks_init g
  let s1 :=
    if bitmap_get s.blocksBitmap 1 = 0 then
      (alloc_block (alloc_block (alloc_block s).2).2).2
    else s
  if bitmap_get s1.blocksBitmap 4 = 0 then directory_init s1 else s1

/-! ## Concrete states used by counterexample and witness theorems -/

/-- A small concrete geometry: 4-byte blocks, 2-byte directory entries,
4-character name bound, 16 blocks. -/
def gW : geom_t := ⟨4, 2, 4, 16⟩

/-- The freshly initialized filesystem over `gW`. -/
def stInit : FS := storage_init gW

/-- `stInit` after `mknod("/a", 0100644)`. -/
def stA : FS := (storage_mknod stInit "/a" 0o100644).2

/-- `stA` after `write("/a", [1,2,3], 3, 0)`. -/
def stAW : FS := (storage_write stA "/a" [1, 2, 3] 3 0).2

/-- `stAW` after `truncate("/a",3)`, `truncate("/a",2)`, `truncate("/a",3)`
(the growth/shrink symmetry sequence with `N = 3`, `M = 2`). -/
def stC3 : FS :=
  (storage_truncate (storage_truncate (storage_truncate stAW "/a" 3).2 "/a" 2).2 "/a" 3).2

/-- Geometry for the directory-scan-bound state: 256-byte blocks and 2-byte
entries give a 128-entry block capacity, strictly above the hardcoded 64. -/
def gC2 : geom_t := ⟨256, 2, 4, 16⟩

/-- A directory entry block holding 64 allocated entries named "d" followed by
64 free slots. -/
def dirBlkC2 : block_t :=
  ⟨[], List.replicate 64 ⟨"d", 1, 1⟩ ++ List.replicate 64 zeroDirent, []⟩

/-- A state whose inode 1 is a directory of 64 recorded entries (size 128 =
64 * entSize) whose entry block is block 2. -/
def stC2 : FS :=
  ⟨gC2, [], [], (List.replicate 3 (zeroBlock gC2)).set 2 dirBlkC2,
   [(1, ⟨1, 0o40755, 128, 0, [2, 0]⟩)]⟩

/-- A state whose inode bitmap (scanned over `blockCount = 4` bits) has no
clear bit, with an empty inode table and all blocks free. -/
def stC8 : FS := ⟨⟨4, 2, 4, 4⟩, [0, 0, 0, 0], [1, 1, 1, 1], [], []⟩

/-- `stA` after `unlink("/a")` (slot 0 of the root directory becomes a free
recorded entry) and then `mknod("/b", 0100644)`. -/
def stC5 : FS := (storage_mknod (storage_unlink stA "/a").2 "/b" 0o100644).2

/-- C2: directory lookup's scan bound is NOT derived from the directory's
recorded size: `directory_lookup` hardcodes 64 entries.  In a directory the
insert path grew to 65 recorded entries (capacity 128), the allocated entry
`{"x", 7}` that `directory_put` itself created at index 64 — an index below
`size / entry_size = 65` — is invisible to `directory_lookup`, which returns
NOT_FOUND (-1) instead of 7. -/
theorem C2_lookup_scan_bound_is_hardcoded :
    (Int.tdiv (get_inode (directory_put stC2 1 "x" 7).2 1).size
      ((directory_put stC2 1 "x" 7).2.geom.entSize : Int)).toNat = 65 ∧
    (blocks_get_block (directory_put stC2 1 "x" 7).2
        ((get_inode (directory_put stC2 1 "x" 7).2 1).pointers.getD 0 0)).dirents.getD
      64 zeroDirent = ⟨"x", 7, 1⟩ ∧
    directory_lookup (directory_put stC2 1 "x" 7).2
      (get_inode (directory_put stC2 1 "x" 7).2 1) "x" = -1 := by
  decide

/-- C3: the growth/shrink symmetry sequence `truncate(3); truncate(2);
truncate(3)` on a file holding bytes `[1,2,3]` does yield `stat.size == 3`,
but it does not preserve the bytes in `[0, 2)`: the shrink loop's inclusive
lower bound frees the file's only data block (block 5, whose bitmap bit is
left clear) and also calls `free_block(0)` through the untouched
`pointers[1]`, clearing the reserved block 0's bitmap bit; the re-grow never
re-allocates extent 0, so `read("/a", 2, 0)` afterwards reads zeros out of
block 0 instead of `[1,2]`. -/
theorem C3_shrink_regrow_destroys_prefix :
    ((storage_stat stC3 "/a").2.1.getD ⟨0, 0, 0⟩).st_size = 3 ∧
    storage_read stAW "/a" 2 0 = (2, [1, 2]) ∧
    storage_read stC3 "/a" 2 0 = (2, [0, 0]) ∧
    (get_inode stC3 1).pointers.getD 0 0 = 0 ∧
    stC3.blocksBitmap.getD 5 1 = 0 ∧
    stC3.blocksBitmap.getD 0 1 = 0 := by
  decide

/-- C8: on inode-bitmap exhaustion `alloc_inode` does return the -1 sentinel,
but not before initializing an inode slot through `get_inode(-1)` — an
inode-table access at an invalid index (the model records the write at table
key -1, where `refs` is set to 1) — and allocating a block for its
`pointers[0]` (the block bitmap changes). -/
theorem C8_alloc_inode_exhaustion_writes_invalid_slot :
    (alloc_inode stC8).1 = -1 ∧
    tblHas stC8.inodes (-1) = false ∧
    tblHas (alloc_inode stC8).2.inodes (-1) = true ∧
    (get_inode (alloc_inode stC8).2 (-1)).refs = 1 ∧
    (alloc_inode stC8).2.blocksBitmap ≠ stC8.blocksBitmap := by
  decide

/-- C5 counterexample: after `unlink("/a")` the root directory's recorded
entry 0 is unallocated, yet the next insert (`mknod("/b")`) does not reuse it:
the reuse scan starts at index 1, so the entry is appended at index 1 and the
directory size grows from 2 to 4 — the claim predicted a write into slot 0
with the size unchanged. -/
theorem C5_counterexample_slot0_not_reused :
    ((blocks_get_block (storage_unlink stA "/a").2 4).dirents.getD 0
      zeroDirent).input_allocation = 0 ∧
    (Int.tdiv (get_inode (storage_unlink stA "/a").2 0).size 2).toNat = 1 ∧
    (get_inode stC5 0).size = 4 ∧
    (blocks_get_block stC5 4).dirents.getD 0 zeroDirent = ⟨"a", 1, 0⟩ ∧
    (blocks_get_block stC5 4).dirents.getD 1 zeroDirent = ⟨"b", 1, 1⟩ := by
  decide

/-! ## Helper observations on directories -/

/-- The recorded entry count of a directory inode: `size / sizeof(dirent_t)`
exactly as the directory layer's loops compute it. -/
def dirEntryCount (s : FS) (dinum : Int) : Nat :=
  (Int.tdiv (get_inode s dinum).size (s.geom.entSize : Int)).toNat

/-- The entry array of a directory inode: its `pointers[0]` block viewed as
directory entries. -/
def dirEntriesOf (s : FS) (dinum : Int) : List dirent_t :=
  (blocks_get_block s ((get_inode s dinum).pointers.getD 0 0)).dirents

/-! ## Scan-loop lemmas -/

theorem getD_replicate_self {α : Type} (n : Nat) (a : α) :
    ∀ i : Nat, (List.replicate n a).getD i a = a := by
  induction n with
  | zero => intro i; simp [List.getD]
  | succ m ih =>
    intro i
    cases i with
    | zero => simp [List.replicate_succ]
    | succ k => simpa [List.replicate_succ] using ih k

theorem delScan_none_of (entries : List dirent_t) (name : String) :
    ∀ idxs : List Nat,
      (∀ i ∈ idxs, ¬(((entries.getD i zeroDirent).name = name) ∧
        (entries.getD i zeroDirent).input_allocation ≠ 0)) →
      delScan entries name idxs = none := by
  intro idxs
  induction idxs with
  | nil => intro _; rfl
  | cons i rest ih =>
    intro h
    have hi := h i (List.mem_cons_self i rest)
    simp only [delScan]
    rw [if_neg hi]
    exact ih (fun j hj => h j (List.mem_cons_of_mem _ hj))

theorem lookupScan_none_of (entries : List dirent_t) (name : String) :
    ∀ idxs : List Nat,
      (∀ i ∈ idxs, ¬(((entries.getD i zeroDirent).name = name) ∧
        (entries.getD i zeroDirent).input_allocation = 1)) →
      lookupScan entries name idxs = -1 := by
  intro idxs
  induction idxs with
  | nil => intro _; rfl
  | cons i rest ih =>
    intro h
    have hi := h i (List.mem_cons_self i rest)
    simp only [lookupScan]
    rw [if_neg hi]
    exact ih (fun j hj => h j (List.mem_cons_of_mem _ hj))

theorem putScan_none_of (entries : List dirent_t) :
    ∀ idxs : List Nat,
      (∀ i ∈ idxs, (entries.getD i zeroDirent).input_allocation ≠ 0) →
      putScan entries idxs = none := by
  intro idxs
  induction idxs with
  | nil => intro _; rfl
  | cons i rest ih =>
    intro h
    simp only [putScan]
    rw [if_neg (h i (List.mem_cons_self i rest))]
    exact ih (fun j hj => h j (List.mem_cons_of_mem _ hj))

theorem putScan_range'_first (entries : List dirent_t) (i : Nat)
    (hfree : (entries.getD i zeroDirent).input_allocation = 0) :
    ∀ len start : Nat, start ≤ i → i < start + len →
      (∀ j, start ≤ j → j < i → (entries.getD j zeroDirent).input_allocation ≠ 0) →
      putScan entries (List.range' start len) = some i := by
  intro len
  induction len with
  | zero => intro start h1 h2 _; omega
  | succ n ih =>
    intro start h1 h2 hbusy
    rw [List.range'_succ]
    by_cases hs : start = i
    · subst hs
      simp only [putScan]
      rw [if_pos hfree]
    · have hb : (entries.getD start zeroDirent).input_allocation ≠ 0 :=
        hbusy start le_rfl (by omega)
      simp only [putScan]
      rw [if_neg hb]
      exact ih (start + 1) (by omega) (by omega) (fun j hj1 hj2 => hbusy j (by omega) hj2)

theorem range_drop_one (n : Nat) : (List.range n).drop 1 = List.range' 1 (n - 1) := by
  cases n with
  | zero => rfl
  | succ m =>
    rw [List.range_eq_range', List.range'_succ]
    simp

/-! ## C10: stat is read-only -/

/-- C10: for every path and every filesystem state, `storage_stat` returns
the state unchanged — the inode table, the directories, the blocks and both
bitmaps are exactly the input's — whether it succeeds or fails; only the
caller's stat record (the middle component) is produced. -/
theorem C10_stat_is_read_only (s : FS) (path : String) :
    (storage_stat s path).2.2 = s := by
  unfold storage_stat
  by_cases h : path_lookup s path ≤ 0 <;> simp [h]

/-! ## C9: stat failure convention -/

/-- C9: `storage_stat` fails with -1 exactly when path resolution yields an
inode number `≤ 0` — in particular the root path, which always resolves to
inode 0, is rejected — and on an inode number `> 0` it succeeds, filling
link count, mode and size from the inode's `refs`, `mode` and `size`. -/
theorem C9_stat_failure_convention (s : FS) (path : String) :
    path_lookup s "/" = 0 ∧
    (path_lookup s path ≤ 0 → storage_stat s path = (-1, none, s)) ∧
    (0 < path_lookup s path →
      storage_stat s path =
        (0, some ⟨(get_inode s (path_lookup s path)).refs,
                  (get_inode s (path_lookup s path)).mode,
                  (get_inode s (path_lookup s path)).size⟩, s)) := by
  refine ⟨rfl, ?_, ?_⟩
  · intro h
    unfold storage_stat
    rw [if_pos h]
  · intro h
    unfold storage_stat
    rw [if_neg (by omega)]

/-- Witness for C9 at a concrete state: the root is rejected although it
resolves to inode 0, and the regular file "/a" (inode 1, mode 0100644, size
3 in `stAW`) is reported from its inode fields. -/
theorem C9_witness :
    path_lookup stAW "/" = 0 ∧
    storage_stat stAW "/" = (-1, none, stAW) ∧
    storage_stat stAW "/a" = (0, some ⟨1, 0o100644, 3⟩, stAW) := by
  refine ⟨(C9_stat_failure_convention stAW "/").1, ?_, ?_⟩
  · exact (C9_stat_failure_convention stAW "/").2.1 (by decide)
  · have h := (C9_stat_failure_convention stAW "/a").2.2 (by decide)
    rw [h]
    decide

/-! ## C6: read length contract -/

theorem readLoop_count (s : FS) (inode : inode_t) (offset : Int)
    (hbs : 0 < s.geom.blockSize) (hoff : 0 ≤ offset) :
    ∀ (fuel : Nat) (remaining bytesRead : Int) (acc : List Nat),
      0 ≤ remaining → remaining ≤ (fuel : Int) →
      (readLoop s inode offset fuel remaining bytesRead acc).1 =
        bytesRead + remaining := by
  intro fuel
  induction fuel with
  | zero =>
    intro remaining bytesRead acc h0 hle
    have : remaining = 0 := by omega
    subst this
    simp [readLoop]
  | succ n ih =>
    intro remaining bytesRead acc h0 hle
    by_cases hpos : 0 < remaining
    · have hmod0 : 0 ≤ Int.tmod offset (s.geom.blockSize : Int) :=
        Int.tmod_nonneg _ hoff
      have hmodlt : Int.tmod offset (s.geom.blockSize : Int) < (s.geom.blockSize : Int) :=
        Int.tmod_lt_of_pos _ (by exact_mod_cast hbs)
      simp only [readLoop]
      rw [if_pos hpos]
      by_cases hsz : remaining < (s.geom.blockSize : Int) - Int.tmod offset (s.geom.blockSize : Int)
      · rw [if_pos hsz]
        rw [ih _ _ _ (by omega) (by omega)]
        ring
      · rw [if_neg hsz]
        rw [ih _ _ _ (by omega) (by omega)]
        ring
    · have : remaining = 0 := by omega
      subst this
      simp [readLoop]

/-- C6: for a path resolving to a valid inode number, `storage_read` returns
0 bytes read when the offset is at or beyond the inode's size, and otherwise
reads and reports exactly the requested `size` bytes — the count is never
clamped to the file's end. -/
theorem C6_read_length_contract (s : FS) (path : String) (size : Nat) (offset : Int)
    (hbs : 0 < s.geom.blockSize) (hoff : 0 ≤ offset)
    (hres : 0 < path_lookup s path) :
    ((get_inode s (path_lookup s path)).size ≤ offset →
      storage_read s path size offset = (0, [])) ∧
    (offset < (get_inode s (path_lookup s path)).size →
      (storage_read s path size offset).1 = (size : Int)) := by
  constructor
  · intro h
    unfold storage_read
    rw [if_neg (by omega), if_pos h]
  · intro h
    unfold storage_read
    rw [if_neg (by omega), if_neg (by omega)]
    rw [readLoop_count s _ offset hbs hoff size (size : Int) 0 [] (by positivity) le_rfl]
    ring

/-- Witness for C6 at a concrete state: in `stAW` the file "/a" has size 3,
yet `read("/a", 4, 0)` reports 4 bytes read, and `read("/a", 4, 5)` (offset
past the size) reports 0. -/
theorem C6_witness :
    (storage_read stAW "/a" 4 0).1 = 4 ∧ storage_read stAW "/a" 4 5 = (0, []) := by
  constructor
  · exact (C6_read_length_contract stAW "/a" 4 0 (by decide) (by decide) (by decide)).2
      (by decide)
  · exact (C6_read_length_contract stAW "/a" 4 5 (by decide) (by decide) (by decide)).1
      (by decide)

/-! ## C7: unlink of a missing name mutates nothing -/

/-- C7: when no recorded entry of the parent directory both carries the
final path component as its name and is allocated, `storage_unlink` returns
`-ENOENT` and the returned state is exactly the input state: no inode, no
directory entry, no block and neither bitmap is changed. -/
theorem C7_unlink_missing_name_unchanged (s : FS) (path : String)
    (h : ∀ i ∈ List.range (dirEntryCount s (path_lookup s (split_path s.geom path).1)),
      ¬((((dirEntriesOf s (path_lookup s (split_path s.geom path).1)).getD i
            zeroDirent).name = (split_path s.geom path).2) ∧
        ((dirEntriesOf s (path_lookup s (split_path s.geom path).1)).getD i
            zeroDirent).input_allocation ≠ 0)) :
    storage_unlink s path = (-ENOENT, s) := by
  unfold dirEntryCount dirEntriesOf at h
  simp only [storage_unlink, directory_delete, delScan_none_of _ _ _ h]

/-- Witness for C7: unlinking the absent name "/zz" in `stAW` returns
`-ENOENT` and leaves the state untouched. -/
theorem C7_witness : storage_unlink stAW "/zz" = (-ENOENT, stAW) :=
  C7_unlink_missing_name_unchanged stAW "/zz" (by decide)

/-! ## C5 (amended): insert reuses the first free slot at index ≥ 1 -/

theorem get_inode_setBlock (s : FS) (bnum : Int) (b : block_t) (i : Int) :
    get_inode (setBlock s bnum b) i = get_inode s i := by
  unfold setBlock get_inode
  by_cases h : 0 ≤ bnum <;> simp [h]

/-- C5 (amended): `directory_put`'s reuse scan starts at index 1, so among
the `size/entSize` recorded entries it writes `{name, inum, allocated=1}`
into the first unallocated slot of index at least 1 and leaves the
directory's size unchanged; only when every recorded slot of index 1 and
above is allocated does it append at index `size/entSize` and grow the
directory's size by exactly one entry (slot 0 is never reused). -/
theorem C5_put_reuses_first_free_slot_from_index_one (s : FS) (dinum : Int)
    (name : String) (inum : Int) :
    (∀ i : Nat, 1 ≤ i → i < dirEntryCount s dinum →
      ((dirEntriesOf s dinum).getD i zeroDirent).input_allocation = 0 →
      (∀ j : Nat, 1 ≤ j → j < i →
        ((dirEntriesOf s dinum).getD j zeroDirent).input_allocation ≠ 0) →
      directory_put s dinum name inum =
        (0, setBlock s ((get_inode s dinum).pointers.getD 0 0)
          { blocks_get_block s ((get_inode s dinum).pointers.getD 0 0) with
            dirents := (dirEntriesOf s dinum).set i
              ⟨name.take s.geom.nameMax, inum, 1⟩ })) ∧
    ((∀ j : Nat, 1 ≤ j → j < dirEntryCount s dinum →
        ((dirEntriesOf s dinum).getD j zeroDirent).input_allocation ≠ 0) →
      directory_put s dinum name inum =
        (0, set_inode
          (setBlock s ((get_inode s dinum).pointers.getD 0 0)
            { blocks_get_block s ((get_inode s dinum).pointers.getD 0 0) with
              dirents := (dirEntriesOf s dinum).set (dirEntryCount s dinum)
                ⟨name.take s.geom.nameMax, inum, 1⟩ })
          dinum
          { get_inode s dinum with
            size := (get_inode s dinum).size + (s.geom.entSize : Int) })) := by
  constructor
  · intro i h1 h2 hfree hprev
    have hscan : putScan (dirEntriesOf s dinum)
        ((List.range (dirEntryCount s dinum)).drop 1) = some i := by
      rw [range_drop_one]
      exact putScan_range'_first _ i hfree (dirEntryCount s dinum - 1) 1 h1 (by omega) hprev
    unfold dirEntriesOf dirEntryCount at hscan
    unfold dirEntriesOf
    simp only [directory_put, hscan]
  · intro hall
    have hscan : putScan (dirEntriesOf s dinum)
        ((List.range (dirEntryCount s dinum)).drop 1) = none := by
      rw [range_drop_one]
      refine putScan_none_of _ _ ?_
      intro j hj
      rw [List.mem_range'_1] at hj
      exact hall j hj.1 (by omega)
    unfold dirEntriesOf dirEntryCount at hscan ⊢
    simp only [directory_put, hscan, get_inode_setBlock]

/-- `stA` after `mknod("/b")` (appended at slot 1) and `unlink("/b")`
(slot 1 becomes a free recorded entry). -/
def stABu : FS := (storage_unlink (storage_mknod stA "/b" 0o100644).2 "/b").2

/-- Witness for the amended C5: inserting "c" into `stABu`'s root directory
(two recorded entries, slot 1 unallocated) writes the new entry into slot 1
and changes neither the block layout nor the directory size. -/
theorem C5_amended_witness :
    directory_put stABu 0 "c" 1 =
      (0, setBlock stABu ((get_inode stABu 0).pointers.getD 0 0)
        { blocks_get_block stABu ((get_inode stABu 0).pointers.getD 0 0) with
          dirents := (dirEntriesOf stABu 0).set 1
            ⟨"c".take stABu.geom.nameMax, 1, 1⟩ }) :=
  (C5_put_reuses_first_free_slot_from_index_one stABu 0 "c" 1).1 1 (by decide)
    (by decide) (by decide)
    (fun j hj1 hj2 => absurd (Nat.lt_of_lt_of_le hj2 hj1) (Nat.lt_irrefl j))

/-! ## Canonical-state evaluation from a fresh filesystem -/

theorem replicate_peel {α : Type} (a : α) (n k : Nat) (h : k ≤ n) :
    List.replicate n a = List.replicate k a ++ List.replicate (n - k) a := by
  rw [← List.replicate_add]
  congr 1
  omega

theorem replicate_set_zero {α : Type} (a b : α) (n : Nat) (h : 2 ≤ n) :
    (List.replicate n a).set 0 b = b :: a :: List.replicate (n - 2) a := by
  cases n with
  | zero => omega
  | succ m =>
    cases m with
    | zero => omega
    | succ k => simp [List.replicate_succ]

theorem lookupScan_replicate (mz : Nat) (name : String) :
    lookupScan (List.replicate mz zeroDirent) name (List.range 64) = -1 := by
  refine lookupScan_none_of _ _ _ ?_
  intro i _
  rw [getD_replicate_self]
  simp [zeroDirent]

theorem lookupScan_cons (entries : List dirent_t) (name : String) (i : Nat)
    (rest : List Nat) :
    lookupScan entries name (i :: rest) =
      (if (entries.getD i zeroDirent).name = name ∧
          (entries.getD i zeroDirent).input_allocation = 1
       then (entries.getD i zeroDirent).inum
       else lookupScan entries name rest) := rfl

theorem lookupScan_two (e0 e1 : dirent_t) (mz : Nat) (name : String) :
    lookupScan (e0 :: e1 :: List.replicate mz zeroDirent) name (List.range 64) =
      (if e0.name = name ∧ e0.input_allocation = 1 then e0.inum
       else if e1.name = name ∧ e1.input_allocation = 1 then e1.inum
       else -1) := by
  have htail : lookupScan (e0 :: e1 :: List.replicate mz zeroDirent) name
      (List.range' 2 62) = -1 := by
    refine lookupScan_none_of _ _ _ ?_
    intro i hi
    rw [List.mem_range'_1] at hi
    obtain ⟨k, rfl⟩ : ∃ k, i = k + 2 := ⟨i - 2, by omega⟩
    rw [show k + 2 = (k + 1) + 1 from rfl, List.getD_cons_succ, List.getD_cons_succ,
      getD_replicate_self]
    simp [zeroDirent]
  rw [List.range_eq_range',
    show (List.range' 0 64 : List Nat) = 0 :: 1 :: List.range' 2 62 from by decide,
    lookupScan_cons, lookupScan_cons, htail]
  simp only [List.getD_cons_zero, List.getD_cons_succ]

/-- The canonical state a fresh `storage_init` produces: blocks 0–4 allocated
(reserved 0, three initial blocks, the root's entry block 4), root inode 0
with directory mode and `pointers[0] = 4`. -/
def FS0 (g : geom_t) : FS :=
  ⟨g,
   1::1::1::1::1::0::0::0::0::List.replicate (g.blockCount - 9) 0,
   1::0::0::0::0::0::0::0::0::List.replicate (g.blockCount - 9) 0,
   zeroBlock g::zeroBlock g::zeroBlock g::zeroBlock g::zeroBlock g::
     zeroBlock g::zeroBlock g::zeroBlock g::List.replicate (g.blockCount - 8) (zeroBlock g),
   [(0, ⟨1, 0o40755, 0, 0, [4, 0]⟩)]⟩

/-- The canonical state after `mknod("/n", m)` on `FS0`: inode 1 allocated
with data block 5, entry `{n, 1}` in the root's slot 0, root size one entry. -/
def FS1 (g : geom_t) (n : String) (m : Int) : FS :=
  ⟨g,
   1::1::1::1::1::1::0::0::0::List.replicate (g.blockCount - 9) 0,
   1::1::0::0::0::0::0::0::0::List.replicate (g.blockCount - 9) 0,
   zeroBlock g::zeroBlock g::zeroBlock g::zeroBlock g::
     ⟨List.replicate g.blockSize 0,
      ⟨n, 1, 1⟩ :: zeroDirent :: List.replicate (g.blockSize / g.entSize - 2) zeroDirent,
      List.replicate (g.blockSize / 4) 0⟩ ::
     zeroBlock g::zeroBlock g::zeroBlock g::List.replicate (g.blockCount - 8) (zeroBlock g),
   [(0, ⟨1, 0o40755, (g.entSize : Int), 0, [4, 0]⟩), (1, ⟨1, m, 0, 0, [5, 0]⟩)]⟩

theorem init_eval (g : geom_t) (hbc : 9 ≤ g.blockCount) :
    storage_init g = FS0 g := by
  have hbm : List.replicate g.blockCount (0 : Nat) =
      0::0::0::0::0::0::0::0::0::List.replicate (g.blockCount - 9) 0 := by
    have h := replicate_peel (0 : Nat) g.blockCount 9 (by omega)
    simpa using h
  have hblk : List.replicate g.blockCount (zeroBlock g) =
      zeroBlock g::zeroBlock g::zeroBlock g::zeroBlock g::zeroBlock g::
        zeroBlock g::zeroBlock g::zeroBlock g::
        List.replicate (g.blockCount - 8) (zeroBlock g) := by
    have h := replicate_peel (zeroBlock g) g.blockCount 8 (by omega)
    simpa using h
  unfold storage_init blocks_init
  rw [hbm, hblk]
  simp only [bitmap_get, bitmap_put, alloc_block, alloc_inode, directory_init,
    get_inode, set_inode, tblGet, tblSet, List.findIdx?_cons, FS0,
    List.set_cons_zero, List.set_cons_succ, List.getD_cons_zero, List.getD_cons_succ]
  norm_num [zeroInode]
  rfl

theorem explodeAux_no_slash (cs : List Char) :
    ∀ tok : List Char, '/' ∉ cs →
      explodeAux cs tok = [String.mk (tok.reverse ++ cs)] := by
  induction cs with
  | nil => intro tok _; simp [explodeAux]
  | cons c cs ih =>
    intro tok h
    have hc : c ≠ '/' := fun e => h (e ▸ List.mem_cons_self c cs)
    simp only [explodeAux]
    rw [if_neg hc, ih _ (fun hm => h (List.mem_cons_of_mem _ hm))]
    simp

theorem s_explode_slash_name (n : String) (hn : n ≠ "") (hslash : '/' ∉ n.data) :
    s_explode ("/" ++ n) = ["", n] := by
  have hdata : ("/" ++ n).data = '/' :: n.data := by
    rw [String.data_append]
    rfl
  unfold s_explode
  rw [hdata]
  cases hd : n.data with
  | nil =>
    exfalso
    exact hn (String.ext (by simp [hd]))
  | cons c cs =>
    rw [hd] at hslash
    rw [show explodeChars ('/' :: c :: cs) = String.mk [] :: explodeAux (c :: cs) [] from
      rfl]
    rw [explodeAux_no_slash (c :: cs) [] hslash]
    have hmk : String.mk (c :: cs) = n := by
      apply String.ext
      simp [hd]
    simp [hmk]

theorem string_take_empty (n : Nat) : "".take n = "" := by
  apply String.ext
  rw [String.data_take, show ("".data : List Char) = [] from rfl]
  exact List.take_nil

theorem split_path_slash (g : geom_t) (n : String) (hn : n ≠ "")
    (hslash : '/' ∉ n.data) (htake : n.take g.nameMax = n) :
    split_path g ("/" ++ n) = ("/", n) := by
  unfold split_path
  rw [s_explode_slash_name n hn hslash]
  simp [htake, string_take_empty]

theorem path_lookup_FS0 (g : geom_t) (n : String) (hn : n ≠ "")
    (hslash : '/' ∉ n.data) : path_lookup (FS0 g) ("/" ++ n) = -1 := by
  unfold path_lookup
  rw [s_explode_slash_name n hn hslash]
  simp only [path_lookup_go, directory_lookup, FS0, get_inode, tblGet, blocks_get_block,
    zeroBlock, hn, lookupScan_replicate]
  norm_num [hn]
  exact lookupScan_replicate _ n

theorem mknod_fresh_eval (g : geom_t) (n : String) (m : Int)
    (hcap : 2 ≤ g.blockSize / g.entSize)
    (hn : n ≠ "") (hslash : '/' ∉ n.data) (htake : n.take g.nameMax = n) :
    storage_mknod (FS0 g) ("/" ++ n) m = (0, FS1 g n m) := by
  have hpl : path_lookup (FS0 g) ("/" ++ n) = -1 := path_lookup_FS0 g n hn hslash
  have hsp : split_path (FS0 g).geom ("/" ++ n) = ("/", n) :=
    split_path_slash g n hn hslash htake
  have hroot : path_lookup (FS0 g) "/" = 0 := rfl
  have hset : (List.replicate (g.blockSize / g.entSize) zeroDirent).set 0 ⟨n, 1, 1⟩ =
      ⟨n, 1, 1⟩ :: zeroDirent ::
        List.replicate (g.blockSize / g.entSize - 2) zeroDirent :=
    replicate_set_zero zeroDirent _ _ hcap
  unfold storage_mknod
  rw [hsp, hpl]
  simp only [hroot]
  norm_num
  simp only [alloc_inode, alloc_block, directory_put, putScan, get_inode, set_inode,
    tblGet, tblSet, setBlock, blocks_get_block, bitmap_get, bitmap_put, FS0, FS1,
    zeroBlock, zeroInode, List.findIdx?_cons, List.set_cons_zero, List.set_cons_succ,
    List.getD_cons_zero, List.getD_cons_succ, Int.toNat_ofNat, Int.zero_tdiv,
    Int.toNat_zero, List.range_zero, List.drop_nil, htake]
  norm_num [hset, htake]
  simp only [putScan]
  rw [show Int.toNat 4 = 4 from rfl]
  simp only [List.set_cons_zero, List.set_cons_succ, List.getD_cons_zero,
    List.getD_cons_succ]
  norm_num [hset, htake]

theorem path_lookup_two_entries (s : FS) (n : String) (hn : n ≠ "")
    (hslash : '/' ∉ n.data) (e0 e1 : dirent_t) (mz : Nat)
    (hr : (get_inode s 0).pointers.getD 0 0 = 4)
    (hd : (blocks_get_block s 4).dirents = e0 :: e1 :: List.replicate mz zeroDirent) :
    path_lookup s ("/" ++ n) =
      (if e0.name = n ∧ e0.input_allocation = 1 then
        (if e0.inum = -1 then -1 else e0.inum)
       else if e1.name = n ∧ e1.input_allocation = 1 then
        (if e1.inum = -1 then -1 else e1.inum)
       else -1) := by
  unfold path_lookup
  rw [s_explode_slash_name n hn hslash]
  simp only [path_lookup_go, directory_lookup, hn, if_true,
    show ((0 : Int) = -1) = False from by norm_num, if_false]
  rw [hr, hd, lookupScan_two]
  by_cases hc0 : e0.name = n ∧ e0.input_allocation = 1
  · simp [hc0]
  · by_cases hc1 : e1.name = n ∧ e1.input_allocation = 1
    · simp [hc0, hc1]
    · simp [hc0, hc1]

/-- The canonical state after `link("/na", "/nb")` on `FS1 g nb m1`: entry
`{na, 1}` appended in the root's slot 1, root size two entries, shared inode 1
with two references. -/
def FS2 (g : geom_t) (na nb : String) (m1 : Int) : FS :=
  ⟨g,
   1::1::1::1::1::1::0::0::0::List.replicate (g.blockCount - 9) 0,
   1::1::0::0::0::0::0::0::0::List.replicate (g.blockCount - 9) 0,
   zeroBlock g::zeroBlock g::zeroBlock g::zeroBlock g::
     ⟨List.replicate g.blockSize 0,
      ⟨nb, 1, 1⟩ :: ⟨na, 1, 1⟩ ::
        List.replicate (g.blockSize / g.entSize - 2) zeroDirent,
      List.replicate (g.blockSize / 4) 0⟩ ::
     zeroBlock g::zeroBlock g::zeroBlock g::List.replicate (g.blockCount - 8) (zeroBlock g),
   [(0, ⟨1, 0o40755, (g.entSize : Int) + (g.entSize : Int), 0, [4, 0]⟩),
    (1, ⟨2, m1, 0, 0, [5, 0]⟩)]⟩

theorem link_eval (g : geom_t) (na nb : String) (m1 : Int)
    (hna : na ≠ "") (hsa : '/' ∉ na.data) (hta : na.take g.nameMax = na)
    (hnb : nb ≠ "") (hsb : '/' ∉ nb.data)
    (hes : 0 < g.entSize) :
    storage_link (FS1 g nb m1) ("/" ++ na) ("/" ++ nb) = (0, FS2 g na nb m1) := by
  have hplb : path_lookup (FS1 g nb m1) ("/" ++ nb) = 1 := by
    rw [path_lookup_two_entries (FS1 g nb m1) nb hnb hsb ⟨nb, 1, 1⟩ zeroDirent
      (g.blockSize / g.entSize - 2) rfl rfl]
    simp
  have hsp : split_path (FS1 g nb m1).geom ("/" ++ na) = ("/", na) :=
    split_path_slash g na hna hsa hta
  have hroot : path_lookup (FS1 g nb m1) "/" = 0 := rfl
  have hdiv1 : Int.tdiv ((g.entSize : Nat) : Int) ((g.entSize : Nat) : Int) = 1 :=
    Int.tdiv_self (by exact_mod_cast hes.ne')
  have hdrop1 : (List.range 1).drop 1 = ([] : List Nat) := rfl
  unfold storage_link
  rw [hplb, hsp]
  simp only [hroot]
  norm_num
  simp [directory_put, putScan, get_inode, set_inode, tblGet, tblSet, setBlock,
    blocks_get_block, FS1, FS2, hdiv1, hdrop1, hta]

/-- The canonical state after `unlink("/na")` on `FS2`: slot 1 deallocated,
shared inode 1 back to one reference, nothing reclaimed. -/
def FS3 (g : geom_t) (na nb : String) (m1 : Int) : FS :=
  ⟨g,
   1::1::1::1::1::1::0::0::0::List.replicate (g.blockCount - 9) 0,
   1::1::0::0::0::0::0::0::0::List.replicate (g.blockCount - 9) 0,
   zeroBlock g::zeroBlock g::zeroBlock g::zeroBlock g::
     ⟨List.replicate g.blockSize 0,
      ⟨nb, 1, 1⟩ :: ⟨na, 1, 0⟩ ::
        List.replicate (g.blockSize / g.entSize - 2) zeroDirent,
      List.replicate (g.blockSize / 4) 0⟩ ::
     zeroBlock g::zeroBlock g::zeroBlock g::List.replicate (g.blockCount - 8) (zeroBlock g),
   [(0, ⟨1, 0o40755, (g.entSize : Int) + (g.entSize : Int), 0, [4, 0]⟩),
    (1, ⟨1, m1, 0, 0, [5, 0]⟩)]⟩

/-- The canonical state after also `unlink("/nb")` on `FS3`: inode 1 freed
(bitmap bit 1 cleared, its data block 5 released — and, through the untouched
`pointers[1]`, `free_block(0)` has cleared the reserved bit 0 as well). -/
def FS4 (g : geom_t) (na nb : String) (m1 : Int) : FS :=
  ⟨g,
   0::1::1::1::1::0::0::0::0::List.replicate (g.blockCount - 9) 0,
   1::0::0::0::0::0::0::0::0::List.replicate (g.blockCount - 9) 0,
   zeroBlock g::zeroBlock g::zeroBlock g::zeroBlock g::
     ⟨List.replicate g.blockSize 0,
      ⟨nb, 1, 0⟩ :: ⟨na, 1, 0⟩ ::
        List.replicate (g.blockSize / g.entSize - 2) zeroDirent,
      List.replicate (g.blockSize / 4) 0⟩ ::
     zeroBlock g::zeroBlock g::zeroBlock g::List.replicate (g.blockCount - 8) (zeroBlock g),
   [(0, ⟨1, 0o40755, (g.entSize : Int) + (g.entSize : Int), 0, [4, 0]⟩),
    (1, ⟨0, m1, 0, 0, [0, 0]⟩)]⟩

/-- The canonical state after `mknod("/nc", m2)` on `FS4`: inode index 1 is
reused for the new file and the directory entry reuses slot 1. -/
def FS5 (g : geom_t) (na nb nc : String) (m2 : Int) : FS :=
  ⟨g,
   1::1::1::1::1::0::0::0::0::List.replicate (g.blockCount - 9) 0,
   1::1::0::0::0::0::0::0::0::List.replicate (g.blockCount - 9) 0,
   zeroBlock g::zeroBlock g::zeroBlock g::zeroBlock g::
     ⟨List.replicate g.blockSize 0,
      ⟨nb, 1, 0⟩ :: ⟨nc, 1, 1⟩ ::
        List.replicate (g.blockSize / g.entSize - 2) zeroDirent,
      List.replicate (g.blockSize / 4) 0⟩ ::
     zeroBlock g::zeroBlock g::zeroBlock g::List.replicate (g.blockCount - 8) (zeroBlock g),
   [(0, ⟨1, 0o40755, (g.entSize : Int) + (g.entSize : Int), 0, [4, 0]⟩),
    (1, ⟨1, m2, 0, 0, [0, 0]⟩)]⟩

theorem unlink_a_eval (g : geom_t) (na nb : String) (m1 : Int)
    (hna : na ≠ "") (hsa : '/' ∉ na.data) (hta : na.take g.nameMax = na)
    (hes : 0 < g.entSize) (hab : na ≠ nb) :
    storage_unlink (FS2 g na nb m1) ("/" ++ na) = (0, FS3 g na nb m1) := by
  have hsp : split_path (FS2 g na nb m1).geom ("/" ++ na) = ("/", na) :=
    split_path_slash g na hna hsa hta
  have hroot : path_lookup (FS2 g na nb m1) "/" = 0 := rfl
  have hdiv2 : Int.tdiv ((g.entSize : Int) + (g.entSize : Int)) ((g.entSize : Nat) : Int)
      = 2 := by
    rw [← two_mul]
    exact Int.mul_tdiv_cancel 2 (by exact_mod_cast hes.ne')
  have hba : nb ≠ na := hab.symm
  have hrange2 : List.range 2 = [0, 1] := rfl
  unfold storage_unlink
  rw [hsp]
  simp only [hroot]
  simp [directory_delete, delScan, get_inode, set_inode, tblGet, tblSet, setBlock,
    blocks_get_block, FS2, FS3, hdiv2, hba, hrange2]

theorem unlink_b_eval (g : geom_t) (na nb : String) (m1 : Int)
    (hnb : nb ≠ "") (hsb : '/' ∉ nb.data) (htb : nb.take g.nameMax = nb)
    (hes : 0 < g.entSize) :
    storage_unlink (FS3 g na nb m1) ("/" ++ nb) = (0, FS4 g na nb m1) := by
  have hsp : split_path (FS3 g na nb m1).geom ("/" ++ nb) = ("/", nb) :=
    split_path_slash g nb hnb hsb htb
  have hroot : path_lookup (FS3 g na nb m1) "/" = 0 := rfl
  have hdiv2 : Int.tdiv ((g.entSize : Int) + (g.entSize : Int)) ((g.entSize : Nat) : Int)
      = 2 := by
    rw [← two_mul]
    exact Int.mul_tdiv_cancel 2 (by exact_mod_cast hes.ne')
  have hrange2 : List.range 2 = [0, 1] := rfl
  have hasc : intRangeAsc 0 1 = [0, 1] := rfl
  unfold storage_unlink
  rw [hsp]
  simp only [hroot]
  simp [directory_delete, delScan, get_inode, set_inode, tblGet, tblSet, setBlock,
    blocks_get_block, free_inode, shrink_inode, shrinkStep, free_block, bitmap_put,
    FS3, FS4, hdiv2, hrange2, hasc]

theorem mknod_reuse_eval (g : geom_t) (na nb nc : String) (m1 m2 : Int)
    (hnc : nc ≠ "") (hsc : '/' ∉ nc.data) (htc : nc.take g.nameMax = nc)
    (hes : 0 < g.entSize) :
    storage_mknod (FS4 g na nb m1) ("/" ++ nc) m2 = (0, FS5 g na nb nc m2) := by
  have hplc : path_lookup (FS4 g na nb m1) ("/" ++ nc) = -1 := by
    rw [path_lookup_two_entries (FS4 g na nb m1) nc hnc hsc ⟨nb, 1, 0⟩ ⟨na, 1, 0⟩
      (g.blockSize / g.entSize - 2) rfl rfl]
    simp
  have hsp : split_path (FS4 g na nb m1).geom ("/" ++ nc) = ("/", nc) :=
    split_path_slash g nc hnc hsc htc
  have hroot : path_lookup (FS4 g na nb m1) "/" = 0 := rfl
  have hdiv2 : Int.tdiv ((g.entSize : Int) + (g.entSize : Int)) ((g.entSize : Nat) : Int)
      = 2 := by
    rw [← two_mul]
    exact Int.mul_tdiv_cancel 2 (by exact_mod_cast hes.ne')
  have hrange2 : List.range 2 = [0, 1] := rfl
  unfold storage_mknod
  rw [hsp, hplc]
  simp only [hroot]
  norm_num
  simp [alloc_inode, alloc_block, directory_put, putScan, get_inode, set_inode,
    tblGet, tblSet, setBlock, blocks_get_block, bitmap_get, bitmap_put,
    FS4, FS5, hdiv2, hrange2, htc, List.findIdx?_cons]

/-! ## C4: reference counting across link and unlink -/

/-- C4: from a fresh filesystem, create `"/nb"` (its inode is index 1 with
link count 1 and data block 5).  After `link("/na", "/nb")` both paths stat
with link count 2 (sharing inode 1); after `unlink("/na")` the remaining path
stats with link count 1, the inode's bitmap bit is still set and `"/nb"`
still resolves; after also `unlink("/nb")` the inode bitmap bit 1 is cleared
and the inode's data block 5 is released, so a subsequent `mknod("/nc")`
succeeds and resolves `"/nc"` to the reused inode index 1. -/
theorem C4_link_unlink_refcount (g : geom_t) (na nb nc : String) (m1 m2 : Int)
    (hbc : 9 ≤ g.blockCount) (hes : 0 < g.entSize)
    (hcap : 2 ≤ g.blockSize / g.entSize)
    (hna : na ≠ "") (hsa : '/' ∉ na.data) (hta : na.take g.nameMax = na)
    (hnb : nb ≠ "") (hsb : '/' ∉ nb.data) (htb : nb.take g.nameMax = nb)
    (hnc : nc ≠ "") (hsc : '/' ∉ nc.data) (htc : nc.take g.nameMax = nc)
    (hab : na ≠ nb) :
    let pa := "/" ++ na
    let pb := "/" ++ nb
    let pc := "/" ++ nc
    let s1 := (storage_mknod (storage_init g) pb m1).2
    let s2 := (storage_link s1 pa pb).2
    let s3 := (storage_unlink s2 pa).2
    let s4 := (storage_unlink s3 pb).2
    (storage_stat s1 pb).2.1 = some ⟨1, m1, 0⟩ ∧
    (storage_stat s2 pa).2.1 = some ⟨2, m1, 0⟩ ∧
    (storage_stat s2 pb).2.1 = some ⟨2, m1, 0⟩ ∧
    (storage_stat s3 pb).2.1 = some ⟨1, m1, 0⟩ ∧
    bitmap_get s3.inodeBitmap 1 = 1 ∧
    path_lookup s3 pb = 1 ∧
    bitmap_get s4.inodeBitmap 1 = 0 ∧
    bitmap_get s4.blocksBitmap 5 = 0 ∧
    (storage_mknod s4 pc m2).1 = 0 ∧
    path_lookup (storage_mknod s4 pc m2).2 pc = 1 := by
  have hba : nb ≠ na := hab.symm
  have h0 := init_eval g hbc
  have h1 := mknod_fresh_eval g nb m1 hcap hnb hsb htb
  have h2 := link_eval g na nb m1 hna hsa hta hnb hsb hes
  have h3 := unlink_a_eval g na nb m1 hna hsa hta hes hab
  have h4 := unlink_b_eval g na nb m1 hnb hsb htb hes
  have h5 := mknod_reuse_eval g na nb nc m1 m2 hnc hsc htc hes
  have hpl1b : path_lookup (FS1 g nb m1) ("/" ++ nb) = 1 := by
    rw [path_lookup_two_entries (FS1 g nb m1) nb hnb hsb ⟨nb, 1, 1⟩ zeroDirent
      (g.blockSize / g.entSize - 2) rfl rfl]
    simp
  have hpl2a : path_lookup (FS2 g na nb m1) ("/" ++ na) = 1 := by
    rw [path_lookup_two_entries (FS2 g na nb m1) na hna hsa ⟨nb, 1, 1⟩ ⟨na, 1, 1⟩
      (g.blockSize / g.entSize - 2) rfl rfl]
    simp [hba]
  have hpl2b : path_lookup (FS2 g na nb m1) ("/" ++ nb) = 1 := by
    rw [path_lookup_two_entries (FS2 g na nb m1) nb hnb hsb ⟨nb, 1, 1⟩ ⟨na, 1, 1⟩
      (g.blockSize / g.entSize - 2) rfl rfl]
    simp
  have hpl3b : path_lookup (FS3 g na nb m1) ("/" ++ nb) = 1 := by
    rw [path_lookup_two_entries (FS3 g na nb m1) nb hnb hsb ⟨nb, 1, 1⟩ ⟨na, 1, 0⟩
      (g.blockSize / g.entSize - 2) rfl rfl]
    simp
  have hpl5c : path_lookup (FS5 g na nb nc m2) ("/" ++ nc) = 1 := by
    rw [path_lookup_two_entries (FS5 g na nb nc m2) nc hnc hsc ⟨nb, 1, 0⟩ ⟨nc, 1, 1⟩
      (g.blockSize / g.entSize - 2) rfl rfl]
    simp
  simp only [h0, h1, h2, h3, h4, h5]
  refine ⟨?_, ?_, ?_, ?_, rfl, hpl3b, rfl, rfl, trivial, hpl5c⟩
  · unfold storage_stat
    rw [hpl1b]
    norm_num
    simp [get_inode, tblGet, FS1]
  · unfold storage_stat
    rw [hpl2a]
    norm_num
    simp [get_inode, tblGet, FS2]
  · unfold storage_stat
    rw [hpl2b]
    norm_num
    simp [get_inode, tblGet, FS2]
  · unfold storage_stat
    rw [hpl3b]
    norm_num
    simp [get_inode, tblGet, FS3]

/-- Witness for C4 at the concrete geometry `gW` with names "a", "b", "c" and
modes 0100644. -/
theorem C4_witness :
    let pa := "/" ++ "a"
    let pb := "/" ++ "b"
    let pc := "/" ++ "c"
    let s1 := (storage_mknod (storage_init gW) pb 0o100644).2
    let s2 := (storage_link s1 pa pb).2
    let s3 := (storage_unlink s2 pa).2
    let s4 := (storage_unlink s3 pb).2
    (storage_stat s1 pb).2.1 = some ⟨1, 0o100644, 0⟩ ∧
    (storage_stat s2 pa).2.1 = some ⟨2, 0o100644, 0⟩ ∧
    (storage_stat s2 pb).2.1 = some ⟨2, 0o100644, 0⟩ ∧
    (storage_stat s3 pb).2.1 = some ⟨1, 0o100644, 0⟩ ∧
    bitmap_get s3.inodeBitmap 1 = 1 ∧
    path_lookup s3 pb = 1 ∧
    bitmap_get s4.inodeBitmap 1 = 0 ∧
    bitmap_get s4.blocksBitmap 5 = 0 ∧
    (storage_mknod s4 pc 0o100644).1 = 0 ∧
    path_lookup (storage_mknod s4 pc 0o100644).2 pc = 1 :=
  C4_link_unlink_refcount gW "a" "b" "c" 0o100644 0o100644 (by decide) (by decide)
    (by decide) (by decide) (by decide) (by decide) (by decide) (by decide) (by decide)
    (by decide) (by decide) (by decide) (by decide)

/-! ## C1: write/read round-trip machinery -/

theorem replicate_set_zero_one {α : Type} (a b : α) (k : Nat) (h : 1 ≤ k) :
    (List.replicate k a).set 0 b = b :: List.replicate (k - 1) a := by
  cases k with
  | zero => omega
  | succ j => simp [List.replicate_succ]

/-- The family of states reached between `mknod("/n", m)` and the end of the
round-trip write on a fresh filesystem: only the block bitmap, the file
inode's size and extent fields, and the contents of blocks 5–7 vary. -/
def FSW (g : geom_t) (n : String) (m : Int) (bm : List Nat) (szI : Int)
    (p1 blk : Int) (b5 b6 : List Nat) (b7p : List Int) : FS :=
  ⟨g, bm,
   1::1::0::0::0::0::0::0::0::List.replicate (g.blockCount - 9) 0,
   zeroBlock g::zeroBlock g::zeroBlock g::zeroBlock g::
     ⟨List.replicate g.blockSize 0,
      ⟨n, 1, 1⟩ :: zeroDirent :: List.replicate (g.blockSize / g.entSize - 2) zeroDirent,
      List.replicate (g.blockSize / 4) 0⟩ ::
     ⟨b5, List.replicate (g.blockSize / g.entSize) zeroDirent,
      List.replicate (g.blockSize / 4) 0⟩ ::
     ⟨b6, List.replicate (g.blockSize / g.entSize) zeroDirent,
      List.replicate (g.blockSize / 4) 0⟩ ::
     ⟨List.replicate g.blockSize 0,
      List.replicate (g.blockSize / g.entSize) zeroDirent, b7p⟩ ::
     List.replicate (g.blockCount - 8) (zeroBlock g),
   [(0, ⟨1, 0o40755, (g.entSize : Int), 0, [4, 0]⟩), (1, ⟨1, m, szI, blk, [5, p1]⟩)]⟩

theorem FS1_eq_FSW (g : geom_t) (n : String) (m : Int) :
    FS1 g n m = FSW g n m
      (1::1::1::1::1::1::0::0::0::List.replicate (g.blockCount - 9) 0) 0 0 0
      (List.replicate g.blockSize 0) (List.replicate g.blockSize 0)
      (List.replicate (g.blockSize / 4) 0) := rfl

theorem path_lookup_FSW (g : geom_t) (n : String) (m : Int) (bm : List Nat)
    (szI : Int) (p1 blk : Int) (b5 b6 : List Nat) (b7p : List Int)
    (hn : n ≠ "") (hslash : '/' ∉ n.data) :
    path_lookup (FSW g n m bm szI p1 blk b5 b6 b7p) ("/" ++ n) = 1 := by
  rw [path_lookup_two_entries (FSW g n m bm szI p1 blk b5 b6 b7p) n hn hslash
    ⟨n, 1, 1⟩ zeroDirent (g.blockSize / g.entSize - 2) rfl rfl]
  simp

theorem geom_setBlock (s : FS) (b : Int) (v : block_t) :
    (setBlock s b v).geom = s.geom := by
  unfold setBlock
  split <;> rfl

theorem writeLoop_zero_rem (buf : List Nat) (inode : inode_t) (s : FS) (fuel : Nat)
    (rem bw : Int) (h : rem ≤ 0) : writeLoop buf 0 inode s fuel rem bw = (bw, s) := by
  cases fuel with
  | zero => rfl
  | succ f =>
    unfold writeLoop
    rw [if_neg (by omega)]

theorem readLoop_zero_rem (s : FS) (inode : inode_t) (fuel : Nat)
    (rem br : Int) (acc : List Nat) (h : rem ≤ 0) :
    readLoop s inode 0 fuel rem br acc = (br, acc) := by
  cases fuel with
  | zero => rfl
  | succ f =>
    unfold readLoop
    rw [if_neg (by omega)]

theorem writeLoop_one (buf : List Nat) (inode : inode_t) (s : FS) (fuel : Nat)
    (rem bw : Int)
    (h1 : 0 < rem) (h2 : rem ≤ (s.geom.blockSize : Int)) (hf : rem ≤ (fuel : Int)) :
    writeLoop buf 0 inode s fuel rem bw =
      (bw + rem,
       setBlock s (inode_get_bnum s inode bw)
         { blocks_get_block s (inode_get_bnum s inode bw) with
           bytes := overlay (blocks_get_block s (inode_get_bnum s inode bw)).bytes 0
             ((buf.drop bw.toNat).take rem.toNat) }) := by
  cases fuel with
  | zero =>
    exfalso
    omega
  | succ f =>
    unfold writeLoop
    rw [if_pos h1]
    simp only [Int.zero_tmod, Int.toNat_zero, zero_add, Int.sub_zero]
    have hws : (if rem < (s.geom.blockSize : Int) then rem else (s.geom.blockSize : Int))
        = rem := by
      by_cases hlt : rem < (s.geom.blockSize : Int)
      · rw [if_pos hlt]
      · rw [if_neg hlt]
        omega
    rw [hws, writeLoop_zero_rem _ _ _ _ _ _ (by omega)]

theorem readLoop_one (s : FS) (inode : inode_t) (fuel : Nat) (rem br : Int)
    (acc : List Nat)
    (h1 : 0 < rem) (h2 : rem ≤ (s.geom.blockSize : Int)) (hf : rem ≤ (fuel : Int)) :
    readLoop s inode 0 fuel rem br acc =
      (br + rem,
       acc ++ ((blocks_get_block s (inode_get_bnum s inode br)).bytes).take rem.toNat) := by
  cases fuel with
  | zero =>
    exfalso
    omega
  | succ f =>
    unfold readLoop
    rw [if_pos h1]
    simp only [Int.zero_tmod, Int.toNat_zero, zero_add, Int.sub_zero, List.drop_zero]
    have hws : (if rem < (s.geom.blockSize : Int) then rem else (s.geom.blockSize : Int))
        = rem := by
      by_cases hlt : rem < (s.geom.blockSize : Int)
      · rw [if_pos hlt]
      · rw [if_neg hlt]
        omega
    rw [hws, readLoop_zero_rem _ _ _ _ _ _ (by omega)]

theorem writeLoop_two (buf : List Nat) (inode : inode_t) (s : FS) (fuel : Nat)
    (rem bw : Int) (hbs : 0 < s.geom.blockSize)
    (h1 : (s.geom.blockSize : Int) < rem) (h2 : rem ≤ 2 * (s.geom.blockSize : Int))
    (hf : rem ≤ (fuel : Int)) :
    writeLoop buf 0 inode s fuel rem bw =
      (bw + rem,
       setBlock
         (setBlock s (inode_get_bnum s inode bw)
           { blocks_get_block s (inode_get_bnum s inode bw) with
             bytes := overlay (blocks_get_block s (inode_get_bnum s inode bw)).bytes 0
               ((buf.drop bw.toNat).take (s.geom.blockSize : Int).toNat) })
         (inode_get_bnum
           (setBlock s (inode_get_bnum s inode bw)
             { blocks_get_block s (inode_get_bnum s inode bw) with
               bytes := overlay (blocks_get_block s (inode_get_bnum s inode bw)).bytes 0
                 ((buf.drop bw.toNat).take (s.geom.blockSize : Int).toNat) })
           inode (bw + (s.geom.blockSize : Int)))
         { blocks_get_block
             (setBlock s (inode_get_bnum s inode bw)
               { blocks_get_block s (inode_get_bnum s inode bw) with
                 bytes := overlay (blocks_get_block s (inode_get_bnum s inode bw)).bytes 0
                   ((buf.drop bw.toNat).take (s.geom.blockSize : Int).toNat) })
             (inode_get_bnum
               (setBlock s (inode_get_bnum s inode bw)
                 { blocks_get_block s (inode_get_bnum s inode bw) with
                   bytes := overlay (blocks_get_block s (inode_get_bnum s inode bw)).bytes
                     0 ((buf.drop bw.toNat).take (s.geom.blockSize : Int).toNat) })
               inode (bw + (s.geom.blockSize : Int))) with
           bytes := overlay
             (blocks_get_block
               (setBlock s (inode_get_bnum s inode bw)
                 { blocks_get_block s (inode_get_bnum s inode bw) with
                   bytes := overlay (blocks_get_block s (inode_get_bnum s inode bw)).bytes
                     0 ((buf.drop bw.toNat).take (s.geom.blockSize : Int).toNat) })
               (inode_get_bnum
                 (setBlock s (inode_get_bnum s inode bw)
                   { blocks_get_block s (inode_get_bnum s inode bw) with
                     bytes := overlay (blocks_get_block s (inode_get_bnum s inode bw)).bytes
                       0 ((buf.drop bw.toNat).take (s.geom.blockSize : Int).toNat) })
                 inode (bw + (s.geom.blockSize : Int)))).bytes 0
             ((buf.drop (bw + (s.geom.blockSize : Int)).toNat).take
               (rem - (s.geom.blockSize : Int)).toNat) }) := by
  cases fuel with
  | zero =>
    exfalso
    omega
  | succ f =>
    have hrec := writeLoop_one buf inode
      (setBlock s (inode_get_bnum s inode bw)
        { blocks_get_block s (inode_get_bnum s inode bw) with
          bytes := overlay (blocks_get_block s (inode_get_bnum s inode bw)).bytes 0
            ((buf.drop bw.toNat).take (s.geom.blockSize : Int).toNat) })
      f (rem - (s.geom.blockSize : Int)) (bw + (s.geom.blockSize : Int))
      (by omega) (by rw [geom_setBlock]; omega) (by omega)
    unfold writeLoop
    rw [if_pos (by omega)]
    simp only [Int.zero_tmod, Int.toNat_zero, zero_add, Int.sub_zero]
    rw [if_neg (by omega)]
    rw [hrec]
    rw [show bw + (s.geom.blockSize : Int) + (rem - (s.geom.blockSize : Int)) = bw + rem
      from by ring]

theorem readLoop_two (s : FS) (inode : inode_t) (fuel : Nat) (rem br : Int)
    (acc : List Nat) (hbs : 0 < s.geom.blockSize)
    (h1 : (s.geom.blockSize : Int) < rem) (h2 : rem ≤ 2 * (s.geom.blockSize : Int))
    (hf : rem ≤ (fuel : Int)) :
    readLoop s inode 0 fuel rem br acc =
      (br + rem,
       acc ++ ((blocks_get_block s (inode_get_bnum s inode br)).bytes).take
           (s.geom.blockSize : Int).toNat ++
         ((blocks_get_block s (inode_get_bnum s inode
             (br + (s.geom.blockSize : Int)))).bytes).take
           (rem - (s.geom.blockSize : Int)).toNat) := by
  cases fuel with
  | zero =>
    exfalso
    omega
  | succ f =>
    have hrec := readLoop_one s inode f (rem - (s.geom.blockSize : Int))
      (br + (s.geom.blockSize : Int))
      (acc ++ ((blocks_get_block s (inode_get_bnum s inode br)).bytes).take
        (s.geom.blockSize : Int).toNat)
      (by omega) (by omega) (by omega)
    unfold readLoop
    rw [if_pos (by omega)]
    simp only [Int.zero_tmod, Int.toNat_zero, zero_add, Int.sub_zero, List.drop_zero]
    rw [if_neg (by omega)]
    rw [hrec]
    rw [show br + (s.geom.blockSize : Int) + (rem - (s.geom.blockSize : Int)) = br + rem
      from by ring]

theorem truncate_grow_q0 (g : geom_t) (n : String) (m : Int) (nb : Nat)
    (hn : n ≠ "") (hslash : '/' ∉ n.data) (h0 : 0 < nb)
    (hq : Int.tdiv (nb : Int) (g.blockSize : Int) = 0) :
    storage_truncate (FS1 g n m) ("/" ++ n) (nb : Int) =
      (0, FSW g n m (1::1::1::1::1::1::0::0::0::List.replicate (g.blockCount - 9) 0)
        (nb : Int) 0 0 (List.replicate g.blockSize 0) (List.replicate g.blockSize 0)
        (List.replicate (g.blockSize / 4) 0)) := by
  have hpl : path_lookup (FS1 g n m) ("/" ++ n) = 1 := by
    rw [FS1_eq_FSW]
    exact path_lookup_FSW g n m _ _ _ _ _ _ _ hn hslash
  have hasc : intRangeAsc 1 0 = [] := rfl
  have hc : (0 : Int) < (nb : Int) := by exact_mod_cast h0
  unfold storage_truncate
  rw [hpl]
  norm_num
  rw [if_pos (by
    show (get_inode (FS1 g n m) 1).size < (nb : Int)
    simp [get_inode, tblGet, FS1, hc])]
  simp [grow_inode, get_inode, set_inode, tblGet, tblSet, FS1, FSW, zeroBlock, hq,
    hasc, Int.zero_tdiv]

theorem truncate_grow_q1 (g : geom_t) (n : String) (m : Int) (nb : Nat)
    (hn : n ≠ "") (hslash : '/' ∉ n.data) (h0 : 0 < nb)
    (hq : Int.tdiv (nb : Int) (g.blockSize : Int) = 1) :
    storage_truncate (FS1 g n m) ("/" ++ n) (nb : Int) =
      (0, FSW g n m (1::1::1::1::1::1::1::0::0::List.replicate (g.blockCount - 9) 0)
        (nb : Int) 6 0 (List.replicate g.blockSize 0) (List.replicate g.blockSize 0)
        (List.replicate (g.blockSize / 4) 0)) := by
  have hpl : path_lookup (FS1 g n m) ("/" ++ n) = 1 := by
    rw [FS1_eq_FSW]
    exact path_lookup_FSW g n m _ _ _ _ _ _ _ hn hslash
  have hasc : intRangeAsc 1 1 = [1] := rfl
  have hc : (0 : Int) < (nb : Int) := by exact_mod_cast h0
  unfold storage_truncate
  rw [hpl]
  norm_num
  rw [if_pos (by
    show (get_inode (FS1 g n m) 1).size < (nb : Int)
    simp [get_inode, tblGet, FS1, hc])]
  simp [grow_inode, growStep, alloc_block, get_inode, set_inode, setBlock,
    blocks_get_block, tblGet, tblSet, FS1, FSW, zeroBlock, hq, hasc, Int.zero_tdiv,
    List.findIdx?_cons]

theorem truncate_grow_q2 (g : geom_t) (n : String) (m : Int) (nb : Nat)
    (hn : n ≠ "") (hslash : '/' ∉ n.data) (h0 : 0 < nb) (hbs4 : 4 ≤ g.blockSize)
    (hq : Int.tdiv (nb : Int) (g.blockSize : Int) = 2) :
    storage_truncate (FS1 g n m) ("/" ++ n) (nb : Int) =
      (0, FSW g n m (1::1::1::1::1::1::1::1::1::List.replicate (g.blockCount - 9) 0)
        (nb : Int) 6 7 (List.replicate g.blockSize 0) (List.replicate g.blockSize 0)
        (8 :: List.replicate (g.blockSize / 4 - 1) 0)) := by
  have hpl : path_lookup (FS1 g n m) ("/" ++ n) = 1 := by
    rw [FS1_eq_FSW]
    exact path_lookup_FSW g n m _ _ _ _ _ _ _ hn hslash
  have hasc : intRangeAsc 1 2 = [1, 2] := rfl
  have hc : (0 : Int) < (nb : Int) := by exact_mod_cast h0
  have hdiv4 : 1 ≤ g.blockSize / 4 := (Nat.one_le_div_iff (by norm_num)).2 hbs4
  have hset : (List.replicate (g.blockSize / 4) (0 : Int)).set 0 8 =
      8 :: List.replicate (g.blockSize / 4 - 1) 0 :=
    replicate_set_zero_one 0 8 _ hdiv4
  unfold storage_truncate
  rw [hpl]
  norm_num
  rw [if_pos (by
    show (get_inode (FS1 g n m) 1).size < (nb : Int)
    simp [get_inode, tblGet, FS1, hc])]
  simp [grow_inode, growStep, alloc_block, get_inode, set_inode, setBlock,
    blocks_get_block, tblGet, tblSet, FS1, FSW, zeroBlock, hq, hasc, hset,
    Int.zero_tdiv, List.findIdx?_cons]

theorem tdiv_natCast (a b : Nat) :
    Int.tdiv (a : Int) (b : Int) = ((a / b : Nat) : Int) := by
  rw [Int.tdiv_eq_ediv (by positivity) (by positivity)]
  exact (Int.ofNat_div a b).symm

theorem writeLoop_FSW_one (g : geom_t) (n : String) (m : Int) (bm : List Nat)
    (szI : Int) (p1 blk : Int) (b6 : List Nat) (b7p : List Int) (B : List Nat)
    (fuel : Nat) (h0 : 0 < B.length) (hle : B.length ≤ g.blockSize)
    (hf : B.length ≤ fuel) :
    writeLoop B 0 ⟨1, m, szI, blk, [5, p1]⟩
      (FSW g n m bm szI p1 blk (List.replicate g.blockSize 0) b6 b7p) fuel
      (B.length : Int) 0 =
      ((B.length : Int),
       FSW g n m bm szI p1 blk (B ++ List.replicate (g.blockSize - B.length) 0)
         b6 b7p) := by
  rw [writeLoop_one B ⟨1, m, szI, blk, [5, p1]⟩
    (FSW g n m bm szI p1 blk (List.replicate g.blockSize 0) b6 b7p) fuel
    (B.length : Int) 0 (by exact_mod_cast h0) (by exact_mod_cast hle)
    (by exact_mod_cast hf)]
  simp [inode_get_bnum, blocks_get_block, setBlock, overlay, FSW, Int.zero_tdiv,
    Int.toNat_natCast, List.take_length, List.drop_replicate, zeroBlock]

theorem writeLoop_FSW_two (g : geom_t) (n : String) (m : Int) (bm : List Nat)
    (szI : Int) (blk : Int) (b7p : List Int) (B : List Nat) (fuel : Nat)
    (hbs : 0 < g.blockSize)
    (hlt : g.blockSize < B.length) (hle : B.length ≤ 2 * g.blockSize)
    (hf : B.length ≤ fuel) :
    writeLoop B 0 ⟨1, m, szI, blk, [5, 6]⟩
      (FSW g n m bm szI 6 blk (List.replicate g.blockSize 0)
        (List.replicate g.blockSize 0) b7p) fuel (B.length : Int) 0 =
      ((B.length : Int),
       FSW g n m bm szI 6 blk (B.take g.blockSize)
         (B.drop g.blockSize ++ List.replicate (2 * g.blockSize - B.length) 0)
         b7p) := by
  have hbsne : ((g.blockSize : Nat) : Int) ≠ 0 := by exact_mod_cast hbs.ne'
  have htd1 : Int.tdiv ((g.blockSize : Nat) : Int) ((g.blockSize : Nat) : Int) = 1 :=
    Int.tdiv_self hbsne
  have hlen5 : (B.take g.blockSize).length = g.blockSize := by
    rw [List.length_take]
    omega
  have hlen6 : (B.drop g.blockSize).length = B.length - g.blockSize := by
    rw [List.length_drop]
  have htn : ((B.length : Int) - ((g.blockSize : Nat) : Int)).toNat
      = B.length - g.blockSize := by omega
  rw [writeLoop_two B ⟨1, m, szI, blk, [5, 6]⟩
    (FSW g n m bm szI 6 blk (List.replicate g.blockSize 0)
      (List.replicate g.blockSize 0) b7p) fuel (B.length : Int) 0 hbs
    (by show ((g.blockSize : Nat) : Int) < (B.length : Int); exact_mod_cast hlt)
    (by show (B.length : Int) ≤ 2 * ((g.blockSize : Nat) : Int); push_cast; omega)
    (by show (B.length : Int) ≤ (fuel : Int); exact_mod_cast hf)]
  simp [inode_get_bnum, blocks_get_block, setBlock, overlay, FSW, Int.zero_tdiv,
    Int.toNat_natCast, List.drop_replicate, zeroBlock, htd1, hlen5, hlen6, htn]
  rw [show g.blockSize - (B.length - g.blockSize) = 2 * g.blockSize - B.length from by
      omega,
    show B.length - g.blockSize = (List.drop g.blockSize B).length from hlen6.symm,
    List.take_length]

theorem read_FSW_one (g : geom_t) (n : String) (m : Int) (bm : List Nat)
    (p1 blk : Int) (b6 : List Nat) (b7p : List Int) (B : List Nat)
    (hn : n ≠ "") (hslash : '/' ∉ n.data)
    (h0 : 0 < B.length) (hle : B.length ≤ g.blockSize) :
    storage_read
      (FSW g n m bm (B.length : Int) p1 blk
        (B ++ List.replicate (g.blockSize - B.length) 0) b6 b7p)
      ("/" ++ n) B.length 0 = ((B.length : Int), B) := by
  have hpl := path_lookup_FSW g n m bm (B.length : Int) p1 blk
    (B ++ List.replicate (g.blockSize - B.length) 0) b6 b7p hn hslash
  have hgi : get_inode
      (FSW g n m bm (B.length : Int) p1 blk
        (B ++ List.replicate (g.blockSize - B.length) 0) b6 b7p) 1 =
      ⟨1, m, (B.length : Int), blk, [5, p1]⟩ := rfl
  have hrl := readLoop_one
    (FSW g n m bm (B.length : Int) p1 blk
      (B ++ List.replicate (g.blockSize - B.length) 0) b6 b7p)
    ⟨1, m, (B.length : Int), blk, [5, p1]⟩ B.length (B.length : Int) 0 []
    (by exact_mod_cast h0)
    (by show (B.length : Int) ≤ ((g.blockSize : Nat) : Int); exact_mod_cast hle)
    (le_refl _)
  have hsz : ¬ ((get_inode
      (FSW g n m bm (B.length : Int) p1 blk
        (B ++ List.replicate (g.blockSize - B.length) 0) b6 b7p) 1).size ≤ 0) := by
    rw [hgi]
    show ¬ ((B.length : Int) ≤ 0)
    omega
  simp only [storage_read, hpl]
  rw [if_neg (show ¬ ((1 : Int) ≤ 0) from by norm_num), if_neg hsz]
  rw [hgi, hrl]
  simp [inode_get_bnum, blocks_get_block, FSW, Int.zero_tdiv, Int.toNat_natCast,
    List.take_left, zeroBlock]

theorem read_FSW_two (g : geom_t) (n : String) (m : Int) (bm : List Nat)
    (blk : Int) (b7p : List Int) (B : List Nat)
    (hn : n ≠ "") (hslash : '/' ∉ n.data) (hbs : 0 < g.blockSize)
    (hlt : g.blockSize < B.length) (hle : B.length ≤ 2 * g.blockSize) :
    storage_read
      (FSW g n m bm (B.length : Int) 6 blk (B.take g.blockSize)
        (B.drop g.blockSize ++ List.replicate (2 * g.blockSize - B.length) 0) b7p)
      ("/" ++ n) B.length 0 = ((B.length : Int), B) := by
  have hpl := path_lookup_FSW g n m bm (B.length : Int) 6 blk (B.take g.blockSize)
    (B.drop g.blockSize ++ List.replicate (2 * g.blockSize - B.length) 0) b7p hn hslash
  have hgi : get_inode
      (FSW g n m bm (B.length : Int) 6 blk (B.take g.blockSize)
        (B.drop g.blockSize ++ List.replicate (2 * g.blockSize - B.length) 0) b7p) 1 =
      ⟨1, m, (B.length : Int), blk, [5, 6]⟩ := rfl
  have hbsne : ((g.blockSize : Nat) : Int) ≠ 0 := by exact_mod_cast hbs.ne'
  have htd1 : Int.tdiv ((g.blockSize : Nat) : Int) ((g.blockSize : Nat) : Int) = 1 :=
    Int.tdiv_self hbsne
  have htn : ((B.length : Int) - ((g.blockSize : Nat) : Int)).toNat
      = B.length - g.blockSize := by omega
  have htk5 : (B.take g.blockSize).take g.blockSize = B.take g.blockSize := by
    rw [List.take_take, Nat.min_self]
  have hlen6 : (B.drop g.blockSize).length = B.length - g.blockSize := by
    rw [List.length_drop]
  have htk6 : (B.drop g.blockSize ++
      List.replicate (2 * g.blockSize - B.length) 0).take (B.length - g.blockSize)
      = B.drop g.blockSize := by
    rw [show B.length - g.blockSize = (B.drop g.blockSize).length from hlen6.symm]
    exact List.take_left _ _
  have hrl := readLoop_two
    (FSW g n m bm (B.length : Int) 6 blk (B.take g.blockSize)
      (B.drop g.blockSize ++ List.replicate (2 * g.blockSize - B.length) 0) b7p)
    ⟨1, m, (B.length : Int), blk, [5, 6]⟩ B.length (B.length : Int) 0 [] hbs
    (by show ((g.blockSize : Nat) : Int) < (B.length : Int); exact_mod_cast hlt)
    (by show (B.length : Int) ≤ 2 * ((g.blockSize : Nat) : Int); push_cast; omega)
    (le_refl _)
  have hsz : ¬ ((get_inode
      (FSW g n m bm (B.length : Int) 6 blk (B.take g.blockSize)
        (B.drop g.blockSize ++ List.replicate (2 * g.blockSize - B.length) 0) b7p)
      1).size ≤ 0) := by
    rw [hgi]
    show ¬ ((B.length : Int) ≤ 0)
    omega
  simp only [storage_read, hpl]
  rw [if_neg (show ¬ ((1 : Int) ≤ 0) from by norm_num), if_neg hsz]
  rw [hgi, hrl]
  simp [inode_get_bnum, blocks_get_block, FSW, Int.zero_tdiv, Int.toNat_natCast,
    zeroBlock, htd1, htn, htk5, htk6, List.take_append_drop]

theorem write_FS1_small (g : geom_t) (n : String) (m : Int) (B : List Nat)
    (hn : n ≠ "") (hslash : '/' ∉ n.data)
    (h0 : 0 < B.length) (hlt : B.length < g.blockSize) :
    storage_write (FS1 g n m) ("/" ++ n) B B.length 0 =
      ((B.length : Int),
       FSW g n m (1::1::1::1::1::1::0::0::0::List.replicate (g.blockCount - 9) 0)
         (B.length : Int) 0 0 (B ++ List.replicate (g.blockSize - B.length) 0)
         (List.replicate g.blockSize 0) (List.replicate (g.blockSize / 4) 0)) := by
  have hpl : path_lookup (FS1 g n m) ("/" ++ n) = 1 := by
    rw [FS1_eq_FSW]
    exact path_lookup_FSW g n m _ _ _ _ _ _ _ hn hslash
  have hq : Int.tdiv ((B.length : Nat) : Int) ((g.blockSize : Nat) : Int) = 0 := by
    rw [tdiv_natCast, Nat.div_eq_of_lt hlt]
    rfl
  have htr := truncate_grow_q0 g n m B.length hn hslash h0 hq
  have hgi : get_inode
      (FSW g n m (1::1::1::1::1::1::0::0::0::List.replicate (g.blockCount - 9) 0)
        (B.length : Int) 0 0 (List.replicate g.blockSize 0)
        (List.replicate g.blockSize 0) (List.replicate (g.blockSize / 4) 0)) 1 =
      ⟨1, m, (B.length : Int), 0, [5, 0]⟩ := rfl
  have hwl := writeLoop_FSW_one g n m
    (1::1::1::1::1::1::0::0::0::List.replicate (g.blockCount - 9) 0)
    (B.length : Int) 0 0 (List.replicate g.blockSize 0)
    (List.replicate (g.blockSize / 4) 0) B B.length h0 (le_of_lt hlt) (le_refl _)
  have hsz : (get_inode (FS1 g n m) 1).size < (B.length : Int) := by
    show (0 : Int) < (B.length : Int)
    exact_mod_cast h0
  simp only [storage_write, hpl, zero_add]
  rw [if_neg (show ¬ ((1 : Int) ≤ 0) from by norm_num), if_pos hsz]
  simp only [htr]
  rw [hgi, hwl]

theorem write_FS1_bs (g : geom_t) (n : String) (m : Int) (B : List Nat)
    (hn : n ≠ "") (hslash : '/' ∉ n.data)
    (h0 : 0 < B.length) (heq : B.length = g.blockSize) :
    storage_write (FS1 g n m) ("/" ++ n) B B.length 0 =
      ((B.length : Int),
       FSW g n m (1::1::1::1::1::1::1::0::0::List.replicate (g.blockCount - 9) 0)
         (B.length : Int) 6 0 (B ++ List.replicate (g.blockSize - B.length) 0)
         (List.replicate g.blockSize 0) (List.replicate (g.blockSize / 4) 0)) := by
  have hpl : path_lookup (FS1 g n m) ("/" ++ n) = 1 := by
    rw [FS1_eq_FSW]
    exact path_lookup_FSW g n m _ _ _ _ _ _ _ hn hslash
  have hq : Int.tdiv ((B.length : Nat) : Int) ((g.blockSize : Nat) : Int) = 1 := by
    rw [tdiv_natCast, heq, Nat.div_self (heq ▸ h0)]
    rfl
  have htr := truncate_grow_q1 g n m B.length hn hslash h0 hq
  have hgi : get_inode
      (FSW g n m (1::1::1::1::1::1::1::0::0::List.replicate (g.blockCount - 9) 0)
        (B.length : Int) 6 0 (List.replicate g.blockSize 0)
        (List.replicate g.blockSize 0) (List.replicate (g.blockSize / 4) 0)) 1 =
      ⟨1, m, (B.length : Int), 0, [5, 6]⟩ := rfl
  have hwl := writeLoop_FSW_one g n m
    (1::1::1::1::1::1::1::0::0::List.replicate (g.blockCount - 9) 0)
    (B.length : Int) 6 0 (List.replicate g.blockSize 0)
    (List.replicate (g.blockSize / 4) 0) B B.length h0 (le_of_eq heq) (le_refl _)
  have hsz : (get_inode (FS1 g n m) 1).size < (B.length : Int) := by
    show (0 : Int) < (B.length : Int)
    exact_mod_cast h0
  simp only [storage_write, hpl, zero_add]
  rw [if_neg (show ¬ ((1 : Int) ≤ 0) from by norm_num), if_pos hsz]
  simp only [htr]
  rw [hgi, hwl]

theorem write_FS1_mid (g : geom_t) (n : String) (m : Int) (B : List Nat)
    (hn : n ≠ "") (hslash : '/' ∉ n.data)
    (hgt : g.blockSize < B.length) (hlt2 : B.length < 2 * g.blockSize) :
    storage_write (FS1 g n m) ("/" ++ n) B B.length 0 =
      ((B.length : Int),
       FSW g n m (1::1::1::1::1::1::1::0::0::List.replicate (g.blockCount - 9) 0)
         (B.length : Int) 6 0 (B.take g.blockSize)
         (B.drop g.blockSize ++ List.replicate (2 * g.blockSize - B.length) 0)
         (List.replicate (g.blockSize / 4) 0)) := by
  have h0 : 0 < B.length := by omega
  have hpl : path_lookup (FS1 g n m) ("/" ++ n) = 1 := by
    rw [FS1_eq_FSW]
    exact path_lookup_FSW g n m _ _ _ _ _ _ _ hn hslash
  have hd1 : B.length / g.blockSize = 1 := Nat.div_eq_of_lt_le (by omega) (by omega)
  have hq : Int.tdiv ((B.length : Nat) : Int) ((g.blockSize : Nat) : Int) = 1 := by
    rw [tdiv_natCast, hd1]
    rfl
  have htr := truncate_grow_q1 g n m B.length hn hslash h0 hq
  have hgi : get_inode
      (FSW g n m (1::1::1::1::1::1::1::0::0::List.replicate (g.blockCount - 9) 0)
        (B.length : Int) 6 0 (List.replicate g.blockSize 0)
        (List.replicate g.blockSize 0) (List.replicate (g.blockSize / 4) 0)) 1 =
      ⟨1, m, (B.length : Int), 0, [5, 6]⟩ := rfl
  have hwl := writeLoop_FSW_two g n m
    (1::1::1::1::1::1::1::0::0::List.replicate (g.blockCount - 9) 0)
    (B.length : Int) 0 (List.replicate (g.blockSize / 4) 0) B B.length
    (by omega) hgt (le_of_lt hlt2) (le_refl _)
  have hsz : (get_inode (FS1 g n m) 1).size < (B.length : Int) := by
    show (0 : Int) < (B.length : Int)
    exact_mod_cast h0
  simp only [storage_write, hpl, zero_add]
  rw [if_neg (show ¬ ((1 : Int) ≤ 0) from by norm_num), if_pos hsz]
  simp only [htr]
  rw [hgi, hwl]

theorem write_FS1_2bs (g : geom_t) (n : String) (m : Int) (B : List Nat)
    (hn : n ≠ "") (hslash : '/' ∉ n.data)
    (hbs4 : 4 ≤ g.blockSize) (heq2 : B.length = 2 * g.blockSize) :
    storage_write (FS1 g n m) ("/" ++ n) B B.length 0 =
      ((B.length : Int),
       FSW g n m (1::1::1::1::1::1::1::1::1::List.replicate (g.blockCount - 9) 0)
         (B.length : Int) 6 7 (B.take g.blockSize)
         (B.drop g.blockSize ++ List.replicate (2 * g.blockSize - B.length) 0)
         (8 :: List.replicate (g.blockSize / 4 - 1) 0)) := by
  have h0 : 0 < B.length := by omega
  have hpl : path_lookup (FS1 g n m) ("/" ++ n) = 1 := by
    rw [FS1_eq_FSW]
    exact path_lookup_FSW g n m _ _ _ _ _ _ _ hn hslash
  have hd2 : B.length / g.blockSize = 2 := by
    rw [heq2]
    exact Nat.mul_div_cancel 2 (show 0 < g.blockSize from by omega)
  have hq : Int.tdiv ((B.length : Nat) : Int) ((g.blockSize : Nat) : Int) = 2 := by
    rw [tdiv_natCast, hd2]
    rfl
  have htr := truncate_grow_q2 g n m B.length hn hslash h0 hbs4 hq
  have hgi : get_inode
      (FSW g n m (1::1::1::1::1::1::1::1::1::List.replicate (g.blockCount - 9) 0)
        (B.length : Int) 6 7 (List.replicate g.blockSize 0)
        (List.replicate g.blockSize 0) (8 :: List.replicate (g.blockSize / 4 - 1) 0)) 1 =
      ⟨1, m, (B.length : Int), 7, [5, 6]⟩ := rfl
  have hwl := writeLoop_FSW_two g n m
    (1::1::1::1::1::1::1::1::1::List.replicate (g.blockCount - 9) 0)
    (B.length : Int) 7 (8 :: List.replicate (g.blockSize / 4 - 1) 0) B B.length
    (by omega) (by omega) (by omega) (le_refl _)
  have hsz : (get_inode (FS1 g n m) 1).size < (B.length : Int) := by
    show (0 : Int) < (B.length : Int)
    exact_mod_cast h0
  simp only [storage_write, hpl, zero_add]
  rw [if_neg (show ¬ ((1 : Int) ≤ 0) from by norm_num), if_pos hsz]
  simp only [htr]
  rw [hgi, hwl]

/-- C1: write/read round-trip.  On a fresh filesystem (`storage_init`, with at
least 9 blocks, block size at least 4 and room for at least two directory
entries per block), create `"/n"` via `mknod` (any valid name: nonempty, no
slash, within the name limit).  For every byte buffer `B` of at most two
blocks, `storage_write` of `B` at offset 0 reports `len(B)` bytes written and
a subsequent `storage_read` of `len(B)` bytes at offset 0 reports `len(B)`
bytes read and returns exactly the bytes of `B`. -/
theorem C1_write_read_roundtrip (g : geom_t) (n : String) (m : Int) (B : List Nat)
    (hbc : 9 ≤ g.blockCount) (hbs4 : 4 ≤ g.blockSize)
    (hcap : 2 ≤ g.blockSize / g.entSize)
    (hn : n ≠ "") (hslash : '/' ∉ n.data) (htake : n.take g.nameMax = n)
    (hlen : B.length ≤ 2 * g.blockSize) :
    (storage_mknod (storage_init g) ("/" ++ n) m).1 = 0 ∧
    (storage_write (storage_mknod (storage_init g) ("/" ++ n) m).2 ("/" ++ n) B
        B.length 0).1 = (B.length : Int) ∧
    storage_read
      (storage_write (storage_mknod (storage_init g) ("/" ++ n) m).2 ("/" ++ n) B
        B.length 0).2 ("/" ++ n) B.length 0 = ((B.length : Int), B) := by
  rw [init_eval g hbc, mknod_fresh_eval g n m hcap hn hslash htake]
  refine ⟨rfl, ?_⟩
  show (storage_write (FS1 g n m) ("/" ++ n) B B.length 0).1 = (B.length : Int) ∧
    storage_read (storage_write (FS1 g n m) ("/" ++ n) B B.length 0).2 ("/" ++ n)
      B.length 0 = ((B.length : Int), B)
  rcases Nat.eq_zero_or_pos B.length with hz | h0
  · have hB : B = [] := List.length_eq_zero.mp hz
    subst hB
    have hpl : path_lookup (FS1 g n m) ("/" ++ n) = 1 := by
      rw [FS1_eq_FSW]
      exact path_lookup_FSW g n m _ _ _ _ _ _ _ hn hslash
    have hsz : (get_inode (FS1 g n m) 1).size ≤ 0 := by
      show (0 : Int) ≤ 0
      exact le_refl 0
    have hw : storage_write (FS1 g n m) ("/" ++ n) [] ([] : List Nat).length 0 =
        (0, FS1 g n m) := by
      simp only [storage_write, hpl, zero_add]
      rw [if_neg (show ¬ ((1 : Int) ≤ 0) from by norm_num)]
      rw [if_neg (show ¬ ((get_inode (FS1 g n m) 1).size <
        ((([] : List Nat).length : Nat) : Int)) from by
          show ¬ ((0 : Int) < ((([] : List Nat).length : Nat) : Int))
          simp)]
      rfl
    refine ⟨?_, ?_⟩
    · rw [hw]
      simp
    · rw [hw]
      simp only [storage_read, hpl]
      rw [if_neg (show ¬ ((1 : Int) ≤ 0) from by norm_num), if_pos hsz]
      simp
  · rcases lt_trichotomy B.length g.blockSize with hlt | heq | hgt
    · have hw := write_FS1_small g n m B hn hslash h0 hlt
      refine ⟨?_, ?_⟩
      · rw [hw]
      · rw [hw]
        exact read_FSW_one g n m _ 0 0 _ _ B hn hslash h0 (le_of_lt hlt)
    · have hw := write_FS1_bs g n m B hn hslash h0 heq
      refine ⟨?_, ?_⟩
      · rw [hw]
      · rw [hw]
        exact read_FSW_one g n m _ 6 0 _ _ B hn hslash h0 (le_of_eq heq)
    · rcases lt_or_eq_of_le hlen with hlt2 | heq2
      · have hw := write_FS1_mid g n m B hn hslash hgt hlt2
        refine ⟨?_, ?_⟩
        · rw [hw]
        · rw [hw]
          exact read_FSW_two g n m _ 0 _ B hn hslash (by omega) hgt hlen
      · have hw := write_FS1_2bs g n m B hn hslash hbs4 heq2
        refine ⟨?_, ?_⟩
        · rw [hw]
        · rw [hw]
          exact read_FSW_two g n m _ 7 _ B hn hslash (by omega) (by omega) hlen

/-- Witness for C1 at the concrete geometry `gW` (block size 4), name "a",
mode 0100644 and the six-byte buffer [1,2,3,4,5,6] (spanning two blocks). -/
theorem C1_witness :
    (storage_mknod (storage_init gW) ("/" ++ "a") 0o100644).1 = 0 ∧
    (storage_write (storage_mknod (storage_init gW) ("/" ++ "a") 0o100644).2
        ("/" ++ "a") [1, 2, 3, 4, 5, 6] ([1, 2, 3, 4, 5, 6] : List Nat).length 0).1 =
      ((([1, 2, 3, 4, 5, 6] : List Nat).length : Nat) : Int) ∧
    storage_read
      (storage_write (storage_mknod (storage_init gW) ("/" ++ "a") 0o100644).2
        ("/" ++ "a") [1, 2, 3, 4, 5, 6] ([1, 2, 3, 4, 5, 6] : List Nat).length 0).2
      ("/" ++ "a") ([1, 2, 3, 4, 5, 6] : List Nat).length 0 =
      (((([1, 2, 3, 4, 5, 6] : List Nat).length : Nat) : Int), [1, 2, 3, 4, 5, 6]) :=
  C1_write_read_roundtrip gW "a" 0o100644 [1, 2, 3, 4, 5, 6] (by decide) (by decide)
    (by decide) (by decide) (by decide) (by decide) (by decide)
